import Mathlib

/-!
A shallow embedding of the buffer pool manager of `rust_rdbms`
(`src/rdbms/src/buffer.rs`), together with a model of the spec-level
interface of the Disk I/O layer (`disk.rs` is not among the sources) and of
the spec-level `flush` operation (called from `examples/btree-large.rs` but
not defined among the sources).

Modelling conventions:
* `Rc<Buffer>` sharing is made explicit: each frame records, in `clientRefs`,
  the number of live client clones of its buffer beyond the pool's own
  reference.  `Rc::get_mut` on the frame's buffer succeeds exactly when
  `clientRefs = 0`, and "more than one live reference" (pinned) means
  `clientRefs > 0`.
* `u64` and `usize` values are modelled as `Nat`; `BufferId(usize)` is a
  plain `Nat` index.
* fallible disk calls return `Option`; a Rust panic (out-of-bounds `Vec`
  indexing, a failed `unwrap`) is an explicit `panic` result value.
* each operation also returns the list of disk operations it issued, in
  order, so that write-back/read ordering and "no disk access" facts can be
  stated.
-/

set_option maxHeartbeats 1600000

namespace RustRdbms

/-- Size in bytes of one page.  Modelled from the spec: `disk.rs` (the Disk
I/O layer) is not among the sources; the spec fixes the page size only as a
process-wide constant shared with the disk layer (§6). -/
def PAGE_SIZE : Nat := 4096

/-- PageId: opaque integer identifying an on-disk page (newtype over `u64`
in `disk.rs`), used as the page-table key. -/
abbrev PageId := Nat

/-- Translation of `pub type Page = [u8; PAGE_SIZE]` (buffer.rs:20), the
fixed-size byte block, modelled as a list of byte values. -/
abbrev Page := List Nat

/-- Modelled from the spec: the `Default` value of `PageId` (`disk.rs` is
not among the sources).  The spec describes PageId as an opaque integer with
page 0 conventionally reserved as the metadata root and names no separate
invalid marker, so the integer default 0 is used. -/
def defaultPageId : PageId := 0

/-- The all-zeros page a fresh Buffer holds (buffer.rs:34). -/
def zeroPage : Page := List.replicate PAGE_SIZE 0

/-- Translation of `struct Buffer` (buffer.rs:23-28).  The `RefCell`/`Cell`
interior mutability wrappers are flattened into plain fields. -/
structure Buffer where
  page_id : PageId
  page : Page
  is_dirty : Bool
deriving DecidableEq

/-- Translation of `impl Default for Buffer` (buffer.rs:30-38). -/
def Buffer.default : Buffer :=
  { page_id := defaultPageId, page := zeroPage, is_dirty := false }

/-- Translation of `struct Frame` (buffer.rs:41-45).  `clientRefs` makes the
`Rc<Buffer>` strong count explicit: it counts the live client clones beyond
the pool's own reference, so `Rc::get_mut` succeeds iff `clientRefs = 0`. -/
structure Frame where
  usage_count : Nat
  buffer : Buffer
  clientRefs : Nat
deriving DecidableEq

/-- Translation of the derived `Default` for `Frame`. -/
def Frame.default : Frame :=
  { usage_count := 0, buffer := Buffer.default, clientRefs := 0 }

/-- Frame at index `i` of a frame list (Rust `Vec` indexing; the
out-of-bounds default is never relevant where this is used behind a bounds
check). -/
def frameAt (l : List Frame) (i : Nat) : Frame :=
  l.getD i Frame.default

/-- Translation of `struct BufferPool` (buffer.rs:48-51). -/
structure BufferPool where
  buffers : List Frame
  next_victim_id : Nat
deriving DecidableEq

/-- Translation of `BufferPool::new` (buffer.rs:55-63). -/
def BufferPool.new (pool_size : Nat) : BufferPool :=
  { buffers := List.replicate pool_size Frame.default, next_victim_id := 0 }

/-- Translation of `BufferPool::size` (buffer.rs:65-67). -/
def BufferPool.size (p : BufferPool) : Nat := p.buffers.length

/-- Modelled from the spec: the Disk I/O layer (`disk.rs` is not among the
sources), specified at its interface boundary in §6.  `data` is the current
on-disk bytes of each page; `failRead`/`failWrite` mark the pages on which
the corresponding call reports an I/O error, so that the error-propagation
paths of the buffer manager can be exercised. -/
structure DiskManager where
  data : PageId → Page
  failRead : PageId → Bool
  failWrite : PageId → Bool

/-- Modelled from the spec (§6): `read_page_data(PageId) -> Result<Page>`. -/
def DiskManager.read_page_data (d : DiskManager) (pid : PageId) : Option Page :=
  if d.failRead pid then none else some (d.data pid)

/-- Modelled from the spec (§6):
`write_page_data(PageId, &[u8; PAGE_SIZE]) -> Result<()>`. -/
def DiskManager.write_page_data (d : DiskManager) (pid : PageId) (bytes : Page) :
    Option DiskManager :=
  if d.failWrite pid then none
  else some { d with data := fun q => if q = pid then bytes else d.data q }

/-- One disk operation issued by the manager, in the order issued. -/
inductive DiskOp
  | read (pid : PageId)
  | write (pid : PageId) (bytes : Page)
deriving DecidableEq

/-- Lookup in the page table (`HashMap::get`), modelled on an association
list whose keys are kept distinct by `ptInsert`/`ptRemove`. -/
def ptLookup (pt : List (PageId × Nat)) (p : PageId) : Option Nat :=
  match pt with
  | [] => none
  | e :: rest => if e.1 = p then some e.2 else ptLookup rest p

/-- Removal from the page table (`HashMap::remove`). -/
def ptRemove (pt : List (PageId × Nat)) (p : PageId) : List (PageId × Nat) :=
  pt.filter fun e => !(e.1 == p)

/-- Insertion into the page table (`HashMap::insert`, which replaces any
existing entry for the key). -/
def ptInsert (pt : List (PageId × Nat)) (p : PageId) (bid : Nat) :
    List (PageId × Nat) :=
  (p, bid) :: ptRemove pt p

/-- Result of `BufferPool::evict` (buffer.rs:70-95).  `oob` models the Rust
panic from out-of-bounds `Vec` indexing; `noBuffer` is the `return None`
path; `victim` is the `break` path.  Both non-panic results carry the pool as
mutated by the sweep (decremented usage counts and the final cursor), since
`evict` takes `&mut self` and its effects persist even when it fails. -/
inductive EvictResult
  | oob
  | noBuffer (pool : BufferPool)
  | victim (bid : Nat) (pool : BufferPool)
deriving DecidableEq

/-- Translation of the clock-sweep loop of `BufferPool::evict`
(buffer.rs:74-93).  `buffers` is the frame array, `nv` the current
`next_victim_id`, `cp` the `consecutive_pinned` counter.  A frame with
`usage_count = 0` is the victim (break, cursor left at it); otherwise an
unpinned frame (`clientRefs = 0`, i.e. `Rc::get_mut` succeeds) has its usage
count decremented and `cp` reset, while a pinned frame increments `cp`,
failing with `noBuffer` once `cp` reaches the pool size; the cursor advances
by `(nv + 1) % pool_size` at the bottom of the loop. -/
def evictLoop (buffers : List Frame) (nv cp : Nat) : EvictResult :=
  if hnv : nv < buffers.length then
    if hu : (frameAt buffers nv).usage_count = 0 then
      .victim nv ⟨buffers, nv⟩
    else if hr : (frameAt buffers nv).clientRefs = 0 then
      evictLoop
        (buffers.set nv
          { frameAt buffers nv with
              usage_count := (frameAt buffers nv).usage_count - 1 })
        ((nv + 1) % buffers.length) 0
    else if hc : buffers.length ≤ cp + 1 then
      .noBuffer ⟨buffers, nv⟩
    else
      evictLoop buffers ((nv + 1) % buffers.length) (cp + 1)
  else
    .oob
termination_by ((buffers.map Frame.usage_count).sum, buffers.length - cp)
decreasing_by
  · apply Prod.Lex.left
    have key : ∀ (l : List Frame) (i : Nat), i < l.length →
        ((l.set i
            { frameAt l i with
                usage_count := (frameAt l i).usage_count - 1 }).map
          Frame.usage_count).sum + (frameAt l i).usage_count
          = (l.map Frame.usage_count).sum + ((frameAt l i).usage_count - 1) := by
      intro l
      induction l with
      | nil => intro i hi; simp at hi
      | cons a t ih =>
          intro i hi
          cases i with
          | zero => simp [frameAt]; omega
          | succ j =>
              have hj : j < t.length := by simpa using hi
              have := ih j hj
              simp only [frameAt, List.getD_cons_succ, List.set_cons_succ,
                List.map_cons, List.sum_cons] at this ⊢
              omega
    have hk := key buffers nv hnv
    exact Nat.lt_of_add_lt_add_right
      (lt_of_eq_of_lt hk (Nat.add_lt_add_left (Nat.pred_lt hu) _))
  · apply Prod.Lex.right
    omega

/-- Translation of `BufferPool::evict` (buffer.rs:70-95). -/
def BufferPool.evict (p : BufferPool) : EvictResult :=
  evictLoop p.buffers p.next_victim_id 0

/-- Rust panics that can be raised by `fetch_page`: out-of-bounds `Vec`
indexing, or the `.unwrap()` on `Rc::get_mut` of the victim's buffer. -/
inductive PanicKind
  | oob
  | unwrapFail
deriving DecidableEq

/-- Translation of `enum Error` (buffer.rs:9-15). -/
inductive FetchErr
  | noFreeBuffer
  | ioError
deriving DecidableEq

/-- Result of a `fetch_page` call.  `ok bid` stands for the returned
`Rc<Buffer>` clone, which is the buffer of frame `bid`; the clone itself is
accounted for in that frame's `clientRefs`. -/
inductive FetchResult
  | panicked (k : PanicKind)
  | err (e : FetchErr)
  | ok (bid : Nat)
deriving DecidableEq

/-- Translation of `struct BufferPoolManager` (buffer.rs:117-123). -/
structure BufferPoolManager where
  disk : DiskManager
  pool : BufferPool
  page_table : List (PageId × Nat)

/-- Translation of `BufferPoolManager::new` (buffer.rs:126-133). -/
def BufferPoolManager.new (disk : DiskManager) (pool : BufferPool) :
    BufferPoolManager :=
  { disk := disk, pool := pool, page_table := [] }

/-- Translation of `BufferPoolManager::fetch_page` (buffer.rs:136-170).
Hit path (buffer.rs:138-142): bump the frame's usage count and hand out a
new clone of its buffer, with no disk access.  Miss path (buffer.rs:147-169):
evict a victim, assert exclusive access (`Rc::get_mut(..).unwrap()`,
modelled as `clientRefs = 0` with a panic otherwise), write back a dirty
victim — note buffer.rs:155 passes `page_id` (the page being requested), not
`evict_page_id`, to `write_page_data` — then set the buffer's `page_id`,
clear `is_dirty`, read the requested page from disk into the buffer, set the
usage count to 1, and update the page table by removing the key
`evict_page_id` and inserting the new mapping.  A `?`-propagated I/O error
returns early with the mutations made so far kept.  The third component is
the list of disk operations issued, in order. -/
def fetchPage (m : BufferPoolManager) (pid : PageId) :
    FetchResult × BufferPoolManager × List DiskOp :=
  match ptLookup m.page_table pid with
  | some bid =>
      if bid < m.pool.buffers.length then
        let frame := frameAt m.pool.buffers bid
        let frame1 := { frame with usage_count := frame.usage_count + 1,
                                   clientRefs := frame.clientRefs + 1 }
        (.ok bid,
          { m with pool := { m.pool with buffers := m.pool.buffers.set bid frame1 } },
          [])
      else (.panicked .oob, m, [])
  | none =>
      match BufferPool.evict m.pool with
      | .oob => (.panicked .oob, m, [])
      | .noBuffer pool1 => (.err .noFreeBuffer, { m with pool := pool1 }, [])
      | .victim bid pool1 =>
          if bid < pool1.buffers.length then
            let frame := frameAt pool1.buffers bid
            let evict_page_id := frame.buffer.page_id
            if frame.clientRefs = 0 then
              match (if frame.buffer.is_dirty then
                       (m.disk.write_page_data pid frame.buffer.page).map
                         (fun d => (d, [DiskOp.write pid frame.buffer.page]))
                     else some (m.disk, [])) with
              | none => (.err .ioError, { m with pool := pool1 }, [])
              | some (disk1, tr1) =>
                  match disk1.read_page_data pid with
                  | none =>
                      let frame2 :=
                        { frame with buffer :=
                            { frame.buffer with page_id := pid, is_dirty := false } }
                      (.err .ioError,
                        { m with
                            disk := disk1,
                            pool := { pool1 with
                                        buffers := pool1.buffers.set bid frame2 } },
                        tr1)
                  | some bytes =>
                      let frame2 : Frame :=
                        { usage_count := 1,
                          buffer := { page_id := pid, page := bytes,
                                      is_dirty := false },
                          clientRefs := 1 }
                      (.ok bid,
                        { m with
                            disk := disk1,
                            pool := { pool1 with
                                        buffers := pool1.buffers.set bid frame2 },
                            page_table :=
                              ptInsert (ptRemove m.page_table evict_page_id) pid bid },
                        tr1 ++ [DiskOp.read pid])
            else (.panicked .unwrapFail, { m with pool := pool1 }, [])
          else (.panicked .oob, { m with pool := pool1 }, [])

/-- Modelled from the spec: `BufferPoolManager::flush` is called from
`examples/btree-large.rs:21` but its definition is not among the sources.
Following §4.2 Flush-all, the loop walks every frame in order and, for each
frame with `is_dirty` set, writes its page bytes to disk at its current
`page_id` and clears the flag; an I/O failure aborts the call (result
`false`) and is surfaced to the caller, leaving the failing and later frames
untouched.  It does not evict and does not change page-table state. -/
def flushLoop : DiskManager → List Frame →
    Bool × DiskManager × List Frame × List DiskOp
  | d, [] => (true, d, [], [])
  | d, f :: rest =>
      if f.buffer.is_dirty then
        match d.write_page_data f.buffer.page_id f.buffer.page with
        | none => (false, d, f :: rest, [])
        | some d1 =>
            let r := flushLoop d1 rest
            (r.1, r.2.1,
              { f with buffer := { f.buffer with is_dirty := false } } :: r.2.2.1,
              DiskOp.write f.buffer.page_id f.buffer.page :: r.2.2.2)
      else
        let r := flushLoop d rest
        (r.1, r.2.1, f :: r.2.2.1, r.2.2.2)

/-- Modelled from the spec (§4.2): `flush() -> Result<()>` over the whole
pool; see `flushLoop`. -/
def BufferPoolManager.flush (m : BufferPoolManager) :
    Bool × BufferPoolManager × List DiskOp :=
  let r := flushLoop m.disk m.pool.buffers
  (r.1, { m with disk := r.2.1, pool := { m.pool with buffers := r.2.2.1 } },
    r.2.2.2)

/-- A client-visible operation on a `BufferPoolManager`: a `fetch_page`
call, a client dropping one of its buffer references (the only unpin
mechanism, spec §3), or a client writing a page's bytes through a held
reference and setting `is_dirty` (spec §3: clients mutate `page` in place
and must set `is_dirty` themselves). -/
inductive ClientOp
  | fetch (pid : PageId)
  | dropRef (i : Nat)
  | writePage (i : Nat) (bytes : Page)
deriving DecidableEq

/-- One step of the transition system.  A panicking fetch, a drop of a
reference that is not held, and a write through a reference that is not held
have no successor state. -/
def applyOp (m : BufferPoolManager) (op : ClientOp) : Option BufferPoolManager :=
  match op with
  | .fetch pid =>
      match fetchPage m pid with
      | (.panicked _, _, _) => none
      | (_, m1, _) => some m1
  | .dropRef i =>
      if i < m.pool.buffers.length then
        let f := frameAt m.pool.buffers i
        if 0 < f.clientRefs then
          let f1 := { f with clientRefs := f.clientRefs - 1 }
          some { m with pool := { m.pool with buffers := m.pool.buffers.set i f1 } }
        else none
      else none
  | .writePage i bytes =>
      if i < m.pool.buffers.length then
        let f := frameAt m.pool.buffers i
        if 0 < f.clientRefs then
          let f1 := { f with buffer :=
                        { f.buffer with page := bytes, is_dirty := true } }
          some { m with pool := { m.pool with buffers := m.pool.buffers.set i f1 } }
        else none
      else none

/-- Run a list of client operations from a state. -/
def run (m : BufferPoolManager) : List ClientOp → Option BufferPoolManager
  | [] => some m
  | op :: rest =>
      match applyOp m op with
      | none => none
      | some m1 => run m1 rest

/-- A freshly constructed manager over a pool of `n` default frames
(buffer.rs:55-63, 126-133). -/
def initManager (n : Nat) (d : DiskManager) : BufferPoolManager :=
  BufferPoolManager.new d (BufferPool.new n)

/-- States reachable from a freshly constructed manager whose initial disk
satisfies `P`, under any sequence of client operations. -/
inductive ReachableFrom (P : DiskManager → Prop) : BufferPoolManager → Prop
  | base (n : Nat) (d : DiskManager) : P d → ReachableFrom P (initManager n d)
  | step {m m1 : BufferPoolManager} (op : ClientOp) :
      ReachableFrom P m → applyOp m op = some m1 → ReachableFrom P m1

/-- States reachable from any freshly constructed manager. -/
def Reachable : BufferPoolManager → Prop :=
  ReachableFrom fun _ => True

/-- Disks that never fail a page read. -/
def NoReadFail (d : DiskManager) : Prop :=
  ∀ p, d.failRead p = false

/-- Pin-safety invariant on a frame array: a pinned frame (one with live
client references) has a nonzero usage count, i.e. a frame's usage count is
0 only while the pool holds the sole reference to its buffer. -/
def PinInv (l : List Frame) : Prop :=
  ∀ i, i < l.length → 0 < (frameAt l i).clientRefs →
    1 ≤ (frameAt l i).usage_count

/-- The clock cursor is in range (trivially so for an empty pool). -/
def CursorInv (p : BufferPool) : Prop :=
  p.buffers.length = 0 ∨ p.next_victim_id < p.buffers.length

/-- Every page-table entry points into the frame array. -/
def RangeInv (m : BufferPoolManager) : Prop :=
  ∀ p i, ptLookup m.page_table p = some i → i < m.pool.buffers.length

/-- The inductive invariant of the manager used below. -/
def Invariant (m : BufferPoolManager) : Prop :=
  PinInv m.pool.buffers ∧ CursorInv m.pool ∧ RangeInv m

/-- Page-table consistency: no two entries reference the same frame index,
and every entry's key is the current `page_id` of the referenced frame. -/
def PTConsistent (m : BufferPoolManager) : Prop :=
  (∀ p q i, ptLookup m.page_table p = some i →
      ptLookup m.page_table q = some i → p = q) ∧
  (∀ p i, ptLookup m.page_table p = some i →
      i < m.pool.buffers.length ∧
        (frameAt m.pool.buffers i).buffer.page_id = p)

/-- A disk on which every page reads as zeros and no operation fails. -/
def noFailDisk : DiskManager :=
  { data := fun _ => zeroPage, failRead := fun _ => false,
    failWrite := fun _ => false }

/-- A disk like `noFailDisk` except that reading page 9 fails. -/
def failRead9Disk : DiskManager :=
  { data := fun _ => zeroPage, failRead := fun p => p == 9,
    failWrite := fun _ => false }

/-- A distinctive page content used by the concrete scenarios. -/
def pageSeven : Page := List.replicate PAGE_SIZE 7

/-- A frame with the given usage count, a default buffer and no client
references, used by the clock-sweep scenario of spec §8. -/
def plainFrame (u : Nat) : Frame :=
  { usage_count := u, buffer := Buffer.default, clientRefs := 0 }

/-- The spec §8 clock-sweep scenario: usage counts `[2,0,1]`, cursor 0. -/
def sweepPool : BufferPool :=
  { buffers := [plainFrame 2, plainFrame 0, plainFrame 1], next_victim_id := 0 }

/-- The manager state reached from a one-frame pool over `noFailDisk` by
fetching page 5, overwriting its bytes with `pageSeven` (marking it dirty)
and dropping the client reference. -/
def dirtyVictimState : BufferPoolManager :=
  { disk := noFailDisk,
    pool := { buffers :=
                [{ usage_count := 1,
                   buffer := { page_id := 5, page := pageSeven, is_dirty := true },
                   clientRefs := 0 }],
              next_victim_id := 0 },
    page_table := [(5, 0)] }

/-- The manager state reached from a one-frame pool over `failRead9Disk` by
fetching page 5 and dropping the client reference. -/
def cleanPage5State : BufferPoolManager :=
  { disk := failRead9Disk,
    pool := { buffers :=
                [{ usage_count := 1,
                   buffer := { page_id := 5, page := zeroPage, is_dirty := false },
                   clientRefs := 0 }],
              next_victim_id := 0 },
    page_table := [(5, 0)] }

/-- The manager state reached from a two-frame pool over `noFailDisk` by
fetching page 0 (which stays pinned). -/
def page0PinnedState : BufferPoolManager :=
  { disk := noFailDisk,
    pool := { buffers :=
                [{ usage_count := 1,
                   buffer := { page_id := 0, page := zeroPage, is_dirty := false },
                   clientRefs := 1 },
                 Frame.default],
              next_victim_id := 0 },
    page_table := [(0, 0)] }

/-- The manager state reached from a two-frame pool over `noFailDisk` by
fetching pages 1 and 2, both of which stay pinned: the pool is saturated. -/
def saturatedState : BufferPoolManager :=
  { disk := noFailDisk,
    pool := { buffers :=
                [{ usage_count := 1,
                   buffer := { page_id := 1, page := zeroPage, is_dirty := false },
                   clientRefs := 1 },
                 { usage_count := 1,
                   buffer := { page_id := 2, page := zeroPage, is_dirty := false },
                   clientRefs := 1 }],
              next_victim_id := 1 },
    page_table := [(2, 1), (1, 0)] }

/-- A two-frame manager state with a page-table entry for page 3 at frame 0,
used to exercise the hit path. -/
def hitState : BufferPoolManager :=
  { disk := noFailDisk,
    pool := { buffers :=
                [{ usage_count := 2,
                   buffer := { page_id := 3, page := zeroPage, is_dirty := false },
                   clientRefs := 1 },
                 Frame.default],
              next_victim_id := 0 },
    page_table := [(3, 0)] }

/-- A one-frame manager state whose frame is dirty, used to exercise
`flush`. -/
def dirtyFlushState : BufferPoolManager :=
  { disk := noFailDisk,
    pool := { buffers :=
                [{ usage_count := 1,
                   buffer := { page_id := 4, page := pageSeven, is_dirty := true },
                   clientRefs := 1 }],
              next_victim_id := 0 },
    page_table := [(4, 0)] }

/-- The manager state reached over `failRead9Disk` by fetching page 5,
dropping the reference, and then fetching page 9, whose disk read fails:
the frame's `page_id` has already been overwritten to 9 while the page
table still maps 5 to that frame. -/
def readFailResultState : BufferPoolManager :=
  (run (initManager 1 failRead9Disk) [.fetch 5, .dropRef 0, .fetch 9]).getD
    (initManager 0 noFailDisk)

/-- The manager state reached over `noFailDisk` on a two-frame pool by
fetching page 0 (pinned) and then page 5: the miss evicts the untouched
frame 1, whose construction-default `page_id` 0 collides with cached page 0,
so page 0's page-table entry is removed while frame 0 still holds it. -/
def collisionResultState : BufferPoolManager :=
  (run (initManager 2 noFailDisk) [.fetch 0, .fetch 5]).getD
    (initManager 0 noFailDisk)

/-! ### Basic lemmas about frame arrays and the page table -/

theorem frameAt_set_self (l : List Frame) (i : Nat) (f : Frame) (h : i < l.length) :
    frameAt (l.set i f) i = f := by
  induction l generalizing i with
  | nil => simp at h
  | cons a t ih =>
      cases i with
      | zero => simp [frameAt]
      | succ j => simpa [frameAt] using ih j (by simpa using h)

theorem frameAt_set_ne (l : List Frame) (i j : Nat) (f : Frame) (h : j ≠ i) :
    frameAt (l.set i f) j = frameAt l j := by
  induction l generalizing i j with
  | nil => simp [frameAt]
  | cons a t ih =>
      cases i with
      | zero =>
          cases j with
          | zero => exact absurd rfl h
          | succ k => simp [frameAt]
      | succ i1 =>
          cases j with
          | zero => simp [frameAt]
          | succ k => simpa [frameAt] using ih i1 k (by omega)

theorem frameAt_replicate (n i : Nat) :
    frameAt (List.replicate n Frame.default) i = Frame.default := by
  induction n generalizing i with
  | zero => simp [frameAt]
  | succ k ih =>
      cases i with
      | zero => simp [frameAt, List.replicate]
      | succ j =>
          simp only [List.replicate, frameAt, List.getD_cons_succ] at ih ⊢
          exact ih j

theorem ptLookup_remove_self (pt : List (PageId × Nat)) (p : PageId) :
    ptLookup (ptRemove pt p) p = none := by
  induction pt with
  | nil => simp [ptRemove, ptLookup]
  | cons e rest ih =>
      by_cases h : e.1 = p
      · simpa [ptRemove, h] using ih
      · simpa [ptRemove, ptLookup, h] using ih

theorem ptLookup_remove_ne (pt : List (PageId × Nat)) (p q : PageId) (h : q ≠ p) :
    ptLookup (ptRemove pt p) q = ptLookup pt q := by
  induction pt with
  | nil => simp [ptRemove]
  | cons e rest ih =>
      have hne : ¬ p = q := fun hq => h hq.symm
      by_cases he : e.1 = p
      · simp only [ptRemove, List.filter_cons] at ih ⊢
        simp [ptLookup, he, hne, ih]
      · by_cases hq : e.1 = q
        · simp [ptRemove, List.filter_cons, ptLookup, he, hq, h]
        · simp only [ptRemove, List.filter_cons] at ih ⊢
          simp [ptLookup, he, hq, ih]

theorem ptLookup_insert_self (pt : List (PageId × Nat)) (p : PageId) (bid : Nat) :
    ptLookup (ptInsert pt p bid) p = some bid := by
  simp [ptInsert, ptLookup]

theorem ptLookup_insert_ne (pt : List (PageId × Nat)) (p : PageId) (bid : Nat)
    (q : PageId) (h : q ≠ p) :
    ptLookup (ptInsert pt p bid) q = ptLookup pt q := by
  have : ¬ p = q := fun hq => h hq.symm
  simp [ptInsert, ptLookup, this, ptLookup_remove_ne pt p q h]

theorem mod_add_left_mod (len a b : Nat) :
    (a % len + b) % len = (a + b) % len :=
  Nat.ModEq.add_right b (Nat.mod_modEq a len)

theorem mod_add_right_mod (len a b : Nat) :
    (a + b % len) % len = (a + b) % len :=
  Nat.ModEq.add_left a (Nat.mod_modEq b len)

theorem cursor_wrap (len x : Nat) (h : x < len) :
    ((x + 1) % len + (len - 1)) % len = x := by
  rw [mod_add_left_mod]
  have h1 : x + 1 + (len - 1) = x + len := by omega
  rw [h1, Nat.add_mod_right, Nat.mod_eq_of_lt h]

/-! ### Step equations for the clock-sweep loop -/

theorem evictLoop_step_victim {buffers : List Frame} {nv cp : Nat}
    (hnv : nv < buffers.length)
    (hu : (frameAt buffers nv).usage_count = 0) :
    evictLoop buffers nv cp = .victim nv ⟨buffers, nv⟩ := by
  rw [evictLoop.eq_def]
  simp [hnv, hu]

theorem evictLoop_step_dec {buffers : List Frame} {nv cp : Nat}
    (hnv : nv < buffers.length)
    (hu : ¬ (frameAt buffers nv).usage_count = 0)
    (hr : (frameAt buffers nv).clientRefs = 0) :
    evictLoop buffers nv cp =
      evictLoop
        (buffers.set nv
          { frameAt buffers nv with
              usage_count := (frameAt buffers nv).usage_count - 1 })
        ((nv + 1) % buffers.length) 0 := by
  rw [evictLoop.eq_def]
  simp [hnv, hu, hr]

theorem evictLoop_step_full {buffers : List Frame} {nv cp : Nat}
    (hnv : nv < buffers.length)
    (hu : ¬ (frameAt buffers nv).usage_count = 0)
    (hr : ¬ (frameAt buffers nv).clientRefs = 0)
    (hc : buffers.length ≤ cp + 1) :
    evictLoop buffers nv cp = .noBuffer ⟨buffers, nv⟩ := by
  rw [evictLoop.eq_def]
  simp [hnv, hu, hr, hc]

theorem evictLoop_step_skip {buffers : List Frame} {nv cp : Nat}
    (hnv : nv < buffers.length)
    (hu : ¬ (frameAt buffers nv).usage_count = 0)
    (hr : ¬ (frameAt buffers nv).clientRefs = 0)
    (hc : ¬ buffers.length ≤ cp + 1) :
    evictLoop buffers nv cp = evictLoop buffers ((nv + 1) % buffers.length) (cp + 1) := by
  rw [evictLoop.eq_def]
  simp [hnv, hu, hr, hc]

theorem evictLoop_step_oob {buffers : List Frame} {nv cp : Nat}
    (hnv : ¬ nv < buffers.length) :
    evictLoop buffers nv cp = .oob := by
  rw [evictLoop.eq_def]
  simp [hnv]

/-! ### Invariants of the clock-sweep loop -/

/-- The sweep never indexes out of bounds when started in bounds. -/
theorem evictLoop_no_oob (buffers : List Frame) (nv cp : Nat)
    (hnv : nv < buffers.length) : evictLoop buffers nv cp ≠ .oob := by
  induction buffers, nv, cp using evictLoop.induct with
  | case1 buffers nv cp hnv1 hu =>
      rw [evictLoop_step_victim hnv1 hu]; intro h; cases h
  | case2 buffers nv cp hnv1 hu hr ih =>
      rw [evictLoop_step_dec hnv1 hu hr]
      exact ih (by simpa using Nat.mod_lt _ (by omega))
  | case3 buffers nv cp hnv1 hu hr hc =>
      rw [evictLoop_step_full hnv1 hu hr hc]; intro h; cases h
  | case4 buffers nv cp hnv1 hu hr hc ih =>
      rw [evictLoop_step_skip hnv1 hu hr hc]
      exact ih (Nat.mod_lt _ (by omega))
  | case5 buffers nv cp hnv1 => exact absurd hnv hnv1

/-- Any non-panic sweep result preserves the frame count, leaves the final
cursor in bounds, keeps every frame's buffer and reference count, and only
ever lowers usage counts, doing so only on unpinned frames. -/
theorem evictLoop_frames (buffers : List Frame) (nv cp : Nat) :
    ∀ pool1, (evictLoop buffers nv cp = .noBuffer pool1 ∨
              ∃ bid, evictLoop buffers nv cp = .victim bid pool1) →
      pool1.buffers.length = buffers.length ∧
      pool1.next_victim_id < buffers.length ∧
      (∀ i, i < buffers.length →
        (frameAt pool1.buffers i).buffer = (frameAt buffers i).buffer ∧
        (frameAt pool1.buffers i).clientRefs = (frameAt buffers i).clientRefs ∧
        (frameAt pool1.buffers i).usage_count ≤ (frameAt buffers i).usage_count ∧
        ((frameAt pool1.buffers i).usage_count < (frameAt buffers i).usage_count →
          (frameAt buffers i).clientRefs = 0)) := by
  induction buffers, nv, cp using evictLoop.induct with
  | case1 buffers nv cp hnv hu =>
      intro pool1 hres
      rw [evictLoop_step_victim hnv hu] at hres
      have hp : pool1 = ⟨buffers, nv⟩ := by
        rcases hres with h | ⟨bid, h⟩
        · cases h
        · cases h; rfl
      subst hp
      refine ⟨rfl, hnv, ?_⟩
      intro i hi
      exact ⟨rfl, rfl, le_refl _, fun hlt => absurd hlt (lt_irrefl _)⟩
  | case2 buffers nv cp hnv hu hr ih =>
      intro pool1 hres
      rw [evictLoop_step_dec hnv hu hr] at hres
      have hlen : (buffers.set nv
          { frameAt buffers nv with
              usage_count := (frameAt buffers nv).usage_count - 1 }).length
            = buffers.length := by simp
      have ih1 := ih pool1 (by simpa [hlen] using hres)
      rw [hlen] at ih1
      refine ⟨ih1.1, ih1.2.1, ?_⟩
      intro i hi
      have ih2 := ih1.2.2 i hi
      by_cases hieq : i = nv
      · subst hieq
        rw [frameAt_set_self _ _ _ hnv] at ih2
        refine ⟨ih2.1, ih2.2.1, le_trans ih2.2.2.1 (Nat.sub_le _ _), fun _ => hr⟩
      · rw [frameAt_set_ne _ _ _ _ hieq] at ih2
        exact ih2
  | case3 buffers nv cp hnv hu hr hc =>
      intro pool1 hres
      rw [evictLoop_step_full hnv hu hr hc] at hres
      have hp : pool1 = ⟨buffers, nv⟩ := by
        rcases hres with h | ⟨bid, h⟩
        · cases h; rfl
        · cases h
      subst hp
      refine ⟨rfl, hnv, ?_⟩
      intro i hi
      exact ⟨rfl, rfl, le_refl _, fun hlt => absurd hlt (lt_irrefl _)⟩
  | case4 buffers nv cp hnv hu hr hc ih =>
      intro pool1 hres
      rw [evictLoop_step_skip hnv hu hr hc] at hres
      exact ih pool1 hres
  | case5 buffers nv cp hnv =>
      intro pool1 hres
      rw [evictLoop_step_oob hnv] at hres
      rcases hres with h | ⟨bid, h⟩ <;> cases h

/-- A sweep victim is the final cursor position, is in bounds, and has usage
count 0 in the result pool. -/
theorem evictLoop_victim (buffers : List Frame) (nv cp : Nat) (bid : Nat)
    (pool1 : BufferPool) (hres : evictLoop buffers nv cp = .victim bid pool1) :
    bid < pool1.buffers.length ∧ pool1.next_victim_id = bid ∧
      (frameAt pool1.buffers bid).usage_count = 0 := by
  induction buffers, nv, cp using evictLoop.induct with
  | case1 buffers nv cp hnv hu =>
      rw [evictLoop_step_victim hnv hu] at hres
      cases hres
      exact ⟨hnv, rfl, hu⟩
  | case2 buffers nv cp hnv hu hr ih =>
      rw [evictLoop_step_dec hnv hu hr] at hres
      exact ih hres
  | case3 buffers nv cp hnv hu hr hc =>
      rw [evictLoop_step_full hnv hu hr hc] at hres
      cases hres
  | case4 buffers nv cp hnv hu hr hc ih =>
      rw [evictLoop_step_skip hnv hu hr hc] at hres
      exact ih hres
  | case5 buffers nv cp hnv =>
      rw [evictLoop_step_oob hnv] at hres
      cases hres

/-- If every frame is pinned (and, per `PinInv`, in use), the sweep walks a
full revolution without mutating any frame and reports `noBuffer`. -/
theorem evictLoop_allPinned (buffers : List Frame) (nv cp : Nat)
    (hnv : nv < buffers.length)
    (hall : ∀ i, i < buffers.length →
      0 < (frameAt buffers i).clientRefs ∧ 1 ≤ (frameAt buffers i).usage_count) :
    ∃ nv1, evictLoop buffers nv cp = .noBuffer ⟨buffers, nv1⟩ := by
  induction buffers, nv, cp using evictLoop.induct with
  | case1 buffers nv cp hnv1 hu =>
      have := (hall nv hnv1).2
      omega
  | case2 buffers nv cp hnv1 hu hr ih =>
      have := (hall nv hnv1).1
      omega
  | case3 buffers nv cp hnv1 hu hr hc =>
      exact ⟨nv, evictLoop_step_full hnv1 hu hr hc⟩
  | case4 buffers nv cp hnv1 hu hr hc ih =>
      rw [evictLoop_step_skip hnv1 hu hr hc]
      exact ih (Nat.mod_lt _ (by omega)) hall
  | case5 buffers nv cp hnv1 => exact absurd hnv hnv1

/-- If some frame within the remaining `consecutive_pinned` budget is
unpinned, the sweep cannot fail: it returns a victim. -/
theorem evictLoop_finds (buffers : List Frame) (nv cp : Nat)
    (hnv : nv < buffers.length) :
    ∀ j k, (nv + k) % buffers.length = j → cp + k < buffers.length →
      (frameAt buffers j).clientRefs = 0 →
      ∃ bid pool1, evictLoop buffers nv cp = .victim bid pool1 := by
  induction buffers, nv, cp using evictLoop.induct with
  | case1 buffers nv cp hnv1 hu =>
      intro j k hjk hk hj
      exact ⟨nv, ⟨buffers, nv⟩, evictLoop_step_victim hnv1 hu⟩
  | case2 buffers nv cp hnv1 hu hr ih =>
      intro j k hjk hk hj
      rw [evictLoop_step_dec hnv1 hu hr]
      have hlen1 : 0 < buffers.length := by omega
      have hnv2 : (nv + 1) % buffers.length <
          (buffers.set nv
            { frameAt buffers nv with
                usage_count := (frameAt buffers nv).usage_count - 1 }).length := by
        simpa using Nat.mod_lt _ hlen1
      have hset : frameAt
          (buffers.set nv
            { frameAt buffers nv with
                usage_count := (frameAt buffers nv).usage_count - 1 }) nv
          = { frameAt buffers nv with
                usage_count := (frameAt buffers nv).usage_count - 1 } :=
        frameAt_set_self _ _ _ hnv1
      have happ := ih hnv2 nv (buffers.length - 1)
        (by simpa using cursor_wrap buffers.length nv hnv1)
        (by simpa using Nat.sub_lt hlen1 Nat.one_pos)
        (by rw [hset]; exact hr)
      simpa using happ
  | case3 buffers nv cp hnv1 hu hr hc =>
      intro j k hjk hk hj
      have hk0 : k = 0 := by omega
      subst hk0
      rw [Nat.add_zero, Nat.mod_eq_of_lt hnv1] at hjk
      subst hjk
      exact absurd hj hr
  | case4 buffers nv cp hnv1 hu hr hc ih =>
      intro j k hjk hk hj
      rw [evictLoop_step_skip hnv1 hu hr hc]
      have hk1 : k ≠ 0 := by
        intro hk0
        subst hk0
        rw [Nat.add_zero, Nat.mod_eq_of_lt hnv1] at hjk
        subst hjk
        exact absurd hj hr
      have hnv2 : (nv + 1) % buffers.length < buffers.length :=
        Nat.mod_lt _ (by omega)
      refine ih hnv2 j (k - 1) ?_ (by omega) hj
      rw [mod_add_left_mod]
      have : nv + 1 + (k - 1) = nv + k := by omega
      rw [this, hjk]
  | case5 buffers nv cp hnv1 =>
      intro j k hjk hk hj
      exact absurd hnv hnv1

/-! ### Pool-level eviction lemmas -/

theorem evict_frames (p : BufferPool) (pool1 : BufferPool)
    (h : p.evict = .noBuffer pool1 ∨ ∃ bid, p.evict = .victim bid pool1) :
    pool1.buffers.length = p.buffers.length ∧
    pool1.next_victim_id < p.buffers.length ∧
    (∀ i, i < p.buffers.length →
      (frameAt pool1.buffers i).buffer = (frameAt p.buffers i).buffer ∧
      (frameAt pool1.buffers i).clientRefs = (frameAt p.buffers i).clientRefs ∧
      (frameAt pool1.buffers i).usage_count ≤ (frameAt p.buffers i).usage_count ∧
      ((frameAt pool1.buffers i).usage_count < (frameAt p.buffers i).usage_count →
        (frameAt p.buffers i).clientRefs = 0)) :=
  evictLoop_frames p.buffers p.next_victim_id 0 pool1 h

theorem evict_preserves_pin (p : BufferPool) (pool1 : BufferPool)
    (hpin : PinInv p.buffers)
    (h : p.evict = .noBuffer pool1 ∨ ∃ bid, p.evict = .victim bid pool1) :
    PinInv pool1.buffers := by
  have hf := evict_frames p pool1 h
  intro i hi hr
  have hi1 : i < p.buffers.length := by rw [← hf.1]; exact hi
  have hfr := hf.2.2 i hi1
  rw [hfr.2.1] at hr
  have husage := hpin i hi1 hr
  by_cases hlt : (frameAt pool1.buffers i).usage_count <
      (frameAt p.buffers i).usage_count
  · have := hfr.2.2.2 hlt
    omega
  · omega

/-- Pin safety of eviction: a selected victim has no live client references,
both in the result pool and in the original pool. -/
theorem evict_victim_unpinned (p : BufferPool) (pool1 : BufferPool) (bid : Nat)
    (hpin : PinInv p.buffers) (hv : p.evict = .victim bid pool1) :
    (frameAt pool1.buffers bid).clientRefs = 0 ∧
      (frameAt p.buffers bid).clientRefs = 0 := by
  have hvic := evictLoop_victim p.buffers p.next_victim_id 0 bid pool1 hv
  have hpin1 := evict_preserves_pin p pool1 hpin (Or.inr ⟨bid, hv⟩)
  have h1 : (frameAt pool1.buffers bid).clientRefs = 0 := by
    by_contra hne
    have := hpin1 bid hvic.1 (by omega)
    omega
  have hf := evict_frames p pool1 (Or.inr ⟨bid, hv⟩)
  have hb : bid < p.buffers.length := by rw [← hf.1]; exact hvic.1
  have := (hf.2.2 bid hb).2.1
  exact ⟨h1, by rw [← this]; exact h1⟩

/-! ### Branch equations for fetch_page -/

theorem fetch_hit {m : BufferPoolManager} {pid : PageId} {bid : Nat}
    (h1 : ptLookup m.page_table pid = some bid)
    (h2 : bid < m.pool.buffers.length) :
    fetchPage m pid =
      (.ok bid,
        { m with pool := { m.pool with buffers :=
            (m.pool.buffers.set bid
              { frameAt m.pool.buffers bid with
                  usage_count := (frameAt m.pool.buffers bid).usage_count + 1,
                  clientRefs := (frameAt m.pool.buffers bid).clientRefs + 1 }) } },
        []) := by
  simp [fetchPage, h1, h2]

theorem fetch_miss_noBuffer {m : BufferPoolManager} {pid : PageId}
    {pool1 : BufferPool}
    (hmiss : ptLookup m.page_table pid = none)
    (hev : m.pool.evict = .noBuffer pool1) :
    fetchPage m pid = (.err .noFreeBuffer, { m with pool := pool1 }, []) := by
  simp [fetchPage, hmiss, hev]

theorem fetch_miss_oob {m : BufferPoolManager} {pid : PageId}
    (hmiss : ptLookup m.page_table pid = none)
    (hev : m.pool.evict = .oob) :
    fetchPage m pid = (.panicked .oob, m, []) := by
  simp [fetchPage, hmiss, hev]

theorem fetch_miss_writeFail {m : BufferPoolManager} {pid : PageId}
    {pool1 : BufferPool} {bid : Nat}
    (hmiss : ptLookup m.page_table pid = none)
    (hev : m.pool.evict = .victim bid pool1)
    (hbid : bid < pool1.buffers.length)
    (hrefs : (frameAt pool1.buffers bid).clientRefs = 0)
    (hdisk : (if (frameAt pool1.buffers bid).buffer.is_dirty then
                (m.disk.write_page_data pid (frameAt pool1.buffers bid).buffer.page).map
                  (fun d => (d, [DiskOp.write pid (frameAt pool1.buffers bid).buffer.page]))
              else some (m.disk, [])) = none) :
    fetchPage m pid = (.err .ioError, { m with pool := pool1 }, []) := by
  simp [fetchPage, hmiss, hev, hbid, hrefs, hdisk]

theorem fetch_miss_readFail {m : BufferPoolManager} {pid : PageId}
    {pool1 : BufferPool} {bid : Nat} {disk1 : DiskManager} {tr1 : List DiskOp}
    (hmiss : ptLookup m.page_table pid = none)
    (hev : m.pool.evict = .victim bid pool1)
    (hbid : bid < pool1.buffers.length)
    (hrefs : (frameAt pool1.buffers bid).clientRefs = 0)
    (hdisk : (if (frameAt pool1.buffers bid).buffer.is_dirty then
                (m.disk.write_page_data pid (frameAt pool1.buffers bid).buffer.page).map
                  (fun d => (d, [DiskOp.write pid (frameAt pool1.buffers bid).buffer.page]))
              else some (m.disk, [])) = some (disk1, tr1))
    (hr : disk1.read_page_data pid = none) :
    fetchPage m pid =
      (.err .ioError,
        { m with
            disk := disk1,
            pool := { pool1 with buffers :=
              (pool1.buffers.set bid
                { frameAt pool1.buffers bid with buffer :=
                    { (frameAt pool1.buffers bid).buffer with
                        page_id := pid, is_dirty := false } }) } },
        tr1) := by
  simp [fetchPage, hmiss, hev, hbid, hrefs, hdisk, hr]

theorem fetch_miss_ok {m : BufferPoolManager} {pid : PageId}
    {pool1 : BufferPool} {bid : Nat} {disk1 : DiskManager} {tr1 : List DiskOp}
    {bytes : Page}
    (hmiss : ptLookup m.page_table pid = none)
    (hev : m.pool.evict = .victim bid pool1)
    (hbid : bid < pool1.buffers.length)
    (hrefs : (frameAt pool1.buffers bid).clientRefs = 0)
    (hdisk : (if (frameAt pool1.buffers bid).buffer.is_dirty then
                (m.disk.write_page_data pid (frameAt pool1.buffers bid).buffer.page).map
                  (fun d => (d, [DiskOp.write pid (frameAt pool1.buffers bid).buffer.page]))
              else some (m.disk, [])) = some (disk1, tr1))
    (hr : disk1.read_page_data pid = some bytes) :
    fetchPage m pid =
      (.ok bid,
        { m with
            disk := disk1,
            pool := { pool1 with buffers :=
              (pool1.buffers.set bid
                { usage_count := 1,
                  buffer := { page_id := pid, page := bytes, is_dirty := false },
                  clientRefs := 1 }) },
            page_table :=
              ptInsert
                (ptRemove m.page_table (frameAt pool1.buffers bid).buffer.page_id)
                pid bid },
        tr1 ++ [DiskOp.read pid]) := by
  simp [fetchPage, hmiss, hev, hbid, hrefs, hdisk, hr]

theorem ptLookup_insert_cases {pt : List (PageId × Nat)} {p : PageId} {bid : Nat}
    {q : PageId} {i : Nat} (h : ptLookup (ptInsert pt p bid) q = some i) :
    (q = p ∧ i = bid) ∨ (q ≠ p ∧ ptLookup pt q = some i) := by
  by_cases hq : q = p
  · subst hq
    rw [ptLookup_insert_self] at h
    exact Or.inl ⟨rfl, (Option.some_inj.mp h).symm⟩
  · rw [ptLookup_insert_ne _ _ _ _ hq] at h
    exact Or.inr ⟨hq, h⟩

theorem ptLookup_remove_cases {pt : List (PageId × Nat)} {p q : PageId} {i : Nat}
    (h : ptLookup (ptRemove pt p) q = some i) :
    q ≠ p ∧ ptLookup pt q = some i := by
  by_cases hq : q = p
  · subst hq
    rw [ptLookup_remove_self] at h
    cases h
  · rw [ptLookup_remove_ne _ _ _ hq] at h
    exact ⟨hq, h⟩

/-! ### Preservation of the inductive invariant -/

theorem initManager_invariant (n : Nat) (d : DiskManager) :
    Invariant (initManager n d) := by
  refine ⟨?_, ?_, ?_⟩
  · intro i hi hr
    simp only [initManager, BufferPoolManager.new, BufferPool.new] at hr
    rw [frameAt_replicate] at hr
    simp [Frame.default] at hr
  · by_cases hn : n = 0
    · left; simp [initManager, BufferPoolManager.new, BufferPool.new, hn]
    · right; simp [initManager, BufferPoolManager.new, BufferPool.new]; omega
  · intro p i h
    simp [initManager, BufferPoolManager.new, ptLookup] at h

theorem fetchPage_invariant (m : BufferPoolManager) (pid : PageId)
    (hInv : Invariant m) : Invariant (fetchPage m pid).2.1 := by
  obtain ⟨hpin, hcur, hrange⟩ := hInv
  cases hpt : ptLookup m.page_table pid with
  | some bid =>
      have hbid : bid < m.pool.buffers.length := hrange _ _ hpt
      rw [fetch_hit hpt hbid]
      simp only [Invariant, PinInv, CursorInv, RangeInv]
      refine ⟨?_, ?_, ?_⟩
      · intro i hi hr
        simp only [List.length_set] at hi
        by_cases hieq : i = bid
        · subst hieq
          rw [frameAt_set_self _ _ _ hbid]
          dsimp only
          omega
        · rw [frameAt_set_ne _ _ _ _ hieq] at hr ⊢
          exact hpin i hi hr
      · simp only [List.length_set]
        exact hcur
      · intro p i h
        have := hrange p i h
        simpa using this
  | none =>
      cases hev : m.pool.evict with
      | oob =>
          rw [fetch_miss_oob hpt hev]
          exact ⟨hpin, hcur, hrange⟩
      | noBuffer pool1 =>
          rw [fetch_miss_noBuffer hpt hev]
          have hf := evict_frames m.pool pool1 (Or.inl hev)
          simp only [Invariant, PinInv, CursorInv, RangeInv]
          refine ⟨evict_preserves_pin _ _ hpin (Or.inl hev), Or.inr ?_, ?_⟩
          · exact hf.1.symm ▸ hf.2.1
          · intro p i h
            exact hf.1.symm ▸ hrange p i h
      | victim bid pool1 =>
          have hvic := evictLoop_victim _ _ _ _ _ hev
          have hbid := hvic.1
          have hrefs := (evict_victim_unpinned _ _ _ hpin hev).1
          have hpin1 := evict_preserves_pin _ _ hpin (Or.inr ⟨bid, hev⟩)
          have hf := evict_frames m.pool pool1 (Or.inr ⟨bid, hev⟩)
          have hcur1 : pool1.next_victim_id < pool1.buffers.length :=
            hf.1.symm ▸ hf.2.1
          cases hdisk : (if (frameAt pool1.buffers bid).buffer.is_dirty then
              (m.disk.write_page_data pid (frameAt pool1.buffers bid).buffer.page).map
                (fun d => (d, [DiskOp.write pid (frameAt pool1.buffers bid).buffer.page]))
            else some (m.disk, [])) with
          | none =>
              rw [fetch_miss_writeFail hpt hev hbid hrefs hdisk]
              simp only [Invariant, PinInv, CursorInv, RangeInv]
              refine ⟨hpin1, Or.inr hcur1, ?_⟩
              intro p i h
              exact hf.1.symm ▸ hrange p i h
          | some dt =>
              obtain ⟨disk1, tr1⟩ := dt
              cases hr : disk1.read_page_data pid with
              | none =>
                  rw [fetch_miss_readFail hpt hev hbid hrefs hdisk hr]
                  simp only [Invariant, PinInv, CursorInv, RangeInv]
                  refine ⟨?_, Or.inr ?_, ?_⟩
                  · intro i hi hcl
                    simp only [List.length_set] at hi
                    by_cases hieq : i = bid
                    · subst hieq
                      rw [frameAt_set_self _ _ _ hbid] at hcl
                      dsimp only at hcl
                      omega
                    · rw [frameAt_set_ne _ _ _ _ hieq] at hcl ⊢
                      exact hpin1 i hi hcl
                  · simp only [List.length_set]
                    exact hcur1
                  · intro p i h
                    simp only [List.length_set]
                    exact hf.1.symm ▸ hrange p i h
              | some bytes =>
                  rw [fetch_miss_ok hpt hev hbid hrefs hdisk hr]
                  simp only [Invariant, PinInv, CursorInv, RangeInv]
                  refine ⟨?_, Or.inr ?_, ?_⟩
                  · intro i hi hcl
                    simp only [List.length_set] at hi
                    by_cases hieq : i = bid
                    · subst hieq
                      rw [frameAt_set_self _ _ _ hbid]
                    · rw [frameAt_set_ne _ _ _ _ hieq] at hcl ⊢
                      exact hpin1 i hi hcl
                  · simp only [List.length_set]
                    exact hcur1
                  · intro p i h
                    simp only [List.length_set]
                    rcases ptLookup_insert_cases h with ⟨hq, hi⟩ | ⟨hq, hi⟩
                    · subst hi
                      exact hf.1.symm ▸ hbid
                    · exact hf.1.symm ▸ hrange p i (ptLookup_remove_cases hi).2

theorem applyOp_fetch_eq {m : BufferPoolManager} {pid : PageId}
    {m1 : BufferPoolManager} (h : applyOp m (.fetch pid) = some m1) :
    m1 = (fetchPage m pid).2.1 ∧ ∀ k, (fetchPage m pid).1 ≠ .panicked k := by
  simp only [applyOp] at h
  rcases hfp : fetchPage m pid with ⟨r, m2, tr⟩
  rw [hfp] at h
  dsimp only
  cases r with
  | panicked k => exact Option.noConfusion h
  | err e =>
      dsimp only at h
      injection h with h1
      subst h1
      exact ⟨rfl, fun k hk => by cases hk⟩
  | ok bid =>
      dsimp only at h
      injection h with h1
      subst h1
      exact ⟨rfl, fun k hk => by cases hk⟩

theorem applyOp_invariant {m m1 : BufferPoolManager} {op : ClientOp}
    (hInv : Invariant m) (h : applyOp m op = some m1) : Invariant m1 := by
  obtain ⟨hpin, hcur, hrange⟩ := hInv
  cases op with
  | fetch pid =>
      rw [(applyOp_fetch_eq h).1]
      exact fetchPage_invariant m pid ⟨hpin, hcur, hrange⟩
  | dropRef i =>
      simp only [applyOp] at h
      split at h
      case isTrue hi =>
        split at h
        case isTrue hrf =>
          injection h with h1
          subst h1
          simp only [Invariant, PinInv, CursorInv, RangeInv]
          refine ⟨?_, ?_, ?_⟩
          · intro j hj hcl
            simp only [List.length_set] at hj
            by_cases hje : j = i
            · subst hje
              rw [frameAt_set_self _ _ _ hi] at hcl ⊢
              dsimp only at hcl ⊢
              exact hpin j hj (by omega)
            · rw [frameAt_set_ne _ _ _ _ hje] at hcl ⊢
              exact hpin j hj hcl
          · simp only [List.length_set]
            exact hcur
          · intro p j hp
            have := hrange p j hp
            simpa using this
        case isFalse hrf => exact Option.noConfusion h
      case isFalse hi => exact Option.noConfusion h
  | writePage i bytes =>
      simp only [applyOp] at h
      split at h
      case isTrue hi =>
        split at h
        case isTrue hrf =>
          injection h with h1
          subst h1
          simp only [Invariant, PinInv, CursorInv, RangeInv]
          refine ⟨?_, ?_, ?_⟩
          · intro j hj hcl
            simp only [List.length_set] at hj
            by_cases hje : j = i
            · subst hje
              rw [frameAt_set_self _ _ _ hi] at hcl ⊢
              dsimp only at hcl ⊢
              exact hpin j hj hcl
            · rw [frameAt_set_ne _ _ _ _ hje] at hcl ⊢
              exact hpin j hj hcl
          · simp only [List.length_set]
            exact hcur
          · intro p j hp
            have := hrange p j hp
            simpa using this
        case isFalse hrf => exact Option.noConfusion h
      case isFalse hi => exact Option.noConfusion h

theorem reachable_invariant {P : DiskManager → Prop} {m : BufferPoolManager}
    (h : ReachableFrom P m) : Invariant m := by
  induction h with
  | base n d hd => exact initManager_invariant n d
  | step op hre hstep ih => exact applyOp_invariant ih hstep

/-! ### Remaining (panicking) branches of fetch_page -/

theorem fetch_hit_oob {m : BufferPoolManager} {pid : PageId} {bid : Nat}
    (h1 : ptLookup m.page_table pid = some bid)
    (h2 : ¬ bid < m.pool.buffers.length) :
    fetchPage m pid = (.panicked .oob, m, []) := by
  simp [fetchPage, h1, h2]

theorem fetch_miss_victim_oob {m : BufferPoolManager} {pid : PageId}
    {pool1 : BufferPool} {bid : Nat}
    (hmiss : ptLookup m.page_table pid = none)
    (hev : m.pool.evict = .victim bid pool1)
    (hbid : ¬ bid < pool1.buffers.length) :
    fetchPage m pid = (.panicked .oob, { m with pool := pool1 }, []) := by
  simp [fetchPage, hmiss, hev, hbid]

theorem fetch_miss_unwrapFail {m : BufferPoolManager} {pid : PageId}
    {pool1 : BufferPool} {bid : Nat}
    (hmiss : ptLookup m.page_table pid = none)
    (hev : m.pool.evict = .victim bid pool1)
    (hbid : bid < pool1.buffers.length)
    (hrefs : ¬ (frameAt pool1.buffers bid).clientRefs = 0) :
    fetchPage m pid = (.panicked .unwrapFail, { m with pool := pool1 }, []) := by
  simp [fetchPage, hmiss, hev, hbid, hrefs]

/-- Under the inductive invariant, `fetch_page` on a nonempty pool never
panics: page-table entries are in range (no out-of-bounds hit), the sweep
stays in bounds, and a victim is never pinned (the unwrap succeeds). -/
theorem fetchPage_no_panic (m : BufferPoolManager) (pid : PageId)
    (hInv : Invariant m) (hlen : 1 ≤ m.pool.buffers.length) :
    ∀ k, (fetchPage m pid).1 ≠ .panicked k := by
  obtain ⟨hpin, hcur, hrange⟩ := hInv
  intro k
  cases hpt : ptLookup m.page_table pid with
  | some bid =>
      have hbid := hrange _ _ hpt
      rw [fetch_hit hpt hbid]
      simp
  | none =>
      have hnv : m.pool.next_victim_id < m.pool.buffers.length := by
        rcases hcur with h | h
        · omega
        · exact h
      cases hev : m.pool.evict with
      | oob => exact absurd hev (evictLoop_no_oob _ _ _ hnv)
      | noBuffer pool1 =>
          rw [fetch_miss_noBuffer hpt hev]
          simp
      | victim bid pool1 =>
          have hbid := (evictLoop_victim _ _ _ _ _ hev).1
          have hrefs := (evict_victim_unpinned _ _ _ hpin hev).1
          cases hdisk : (if (frameAt pool1.buffers bid).buffer.is_dirty then
              (m.disk.write_page_data pid (frameAt pool1.buffers bid).buffer.page).map
                (fun d => (d, [DiskOp.write pid (frameAt pool1.buffers bid).buffer.page]))
            else some (m.disk, [])) with
          | none =>
              rw [fetch_miss_writeFail hpt hev hbid hrefs hdisk]
              simp
          | some dt =>
              obtain ⟨disk1, tr1⟩ := dt
              cases hr : disk1.read_page_data pid with
              | none =>
                  rw [fetch_miss_readFail hpt hev hbid hrefs hdisk hr]
                  simp
              | some bytes =>
                  rw [fetch_miss_ok hpt hev hbid hrefs hdisk hr]
                  simp

/-! ### The disk's failure pattern is never modified -/

theorem write_page_data_failRead {d d1 : DiskManager} {pid : PageId} {b : Page}
    (h : d.write_page_data pid b = some d1) : d1.failRead = d.failRead := by
  unfold DiskManager.write_page_data at h
  by_cases hw : d.failWrite pid = true
  · rw [if_pos hw] at h; cases h
  · rw [if_neg hw] at h
    injection h with h1
    subst h1
    rfl

theorem dirtyStep_failRead {m : BufferPoolManager} {pid : PageId}
    {pool1 : BufferPool} {bid : Nat} {disk1 : DiskManager} {tr1 : List DiskOp}
    (hdisk : (if (frameAt pool1.buffers bid).buffer.is_dirty then
                (m.disk.write_page_data pid (frameAt pool1.buffers bid).buffer.page).map
                  (fun d => (d, [DiskOp.write pid (frameAt pool1.buffers bid).buffer.page]))
              else some (m.disk, [])) = some (disk1, tr1)) :
    disk1.failRead = m.disk.failRead := by
  by_cases hd : (frameAt pool1.buffers bid).buffer.is_dirty = true
  · rw [if_pos hd] at hdisk
    rcases Option.map_eq_some'.mp hdisk with ⟨d2, hw, hpair⟩
    have : d2 = disk1 := congrArg Prod.fst hpair
    subst this
    exact write_page_data_failRead hw
  · rw [if_neg hd] at hdisk
    injection hdisk with h1
    have : m.disk = disk1 := congrArg Prod.fst h1
    subst this
    rfl

theorem fetchPage_noReadFail (m : BufferPoolManager) (pid : PageId)
    (hnr : NoReadFail m.disk) : NoReadFail (fetchPage m pid).2.1.disk := by
  cases hpt : ptLookup m.page_table pid with
  | some bid =>
      by_cases hbid : bid < m.pool.buffers.length
      · rw [fetch_hit hpt hbid]; exact hnr
      · rw [fetch_hit_oob hpt hbid]; exact hnr
  | none =>
      cases hev : m.pool.evict with
      | oob => rw [fetch_miss_oob hpt hev]; exact hnr
      | noBuffer pool1 => rw [fetch_miss_noBuffer hpt hev]; exact hnr
      | victim bid pool1 =>
          by_cases hbid : bid < pool1.buffers.length
          · by_cases hrefs : (frameAt pool1.buffers bid).clientRefs = 0
            · cases hdisk : (if (frameAt pool1.buffers bid).buffer.is_dirty then
                  (m.disk.write_page_data pid (frameAt pool1.buffers bid).buffer.page).map
                    (fun d => (d, [DiskOp.write pid (frameAt pool1.buffers bid).buffer.page]))
                else some (m.disk, [])) with
              | none =>
                  rw [fetch_miss_writeFail hpt hev hbid hrefs hdisk]; exact hnr
              | some dt =>
                  obtain ⟨disk1, tr1⟩ := dt
                  have hfr := dirtyStep_failRead hdisk
                  cases hr : disk1.read_page_data pid with
                  | none =>
                      rw [fetch_miss_readFail hpt hev hbid hrefs hdisk hr]
                      intro p
                      show disk1.failRead p = false
                      rw [hfr]; exact hnr p
                  | some bytes =>
                      rw [fetch_miss_ok hpt hev hbid hrefs hdisk hr]
                      intro p
                      show disk1.failRead p = false
                      rw [hfr]; exact hnr p
            · rw [fetch_miss_unwrapFail hpt hev hbid hrefs]; exact hnr
          · rw [fetch_miss_victim_oob hpt hev hbid]; exact hnr

theorem applyOp_noReadFail {m m1 : BufferPoolManager} {op : ClientOp}
    (hnr : NoReadFail m.disk) (h : applyOp m op = some m1) :
    NoReadFail m1.disk := by
  cases op with
  | fetch pid =>
      rw [(applyOp_fetch_eq h).1]
      exact fetchPage_noReadFail m pid hnr
  | dropRef i =>
      simp only [applyOp] at h
      split at h
      · split at h
        · injection h with h1
          subst h1
          exact hnr
        · exact Option.noConfusion h
      · exact Option.noConfusion h
  | writePage i bytes =>
      simp only [applyOp] at h
      split at h
      · split at h
        · injection h with h1
          subst h1
          exact hnr
        · exact Option.noConfusion h
      · exact Option.noConfusion h

theorem reachable_noReadFail {m : BufferPoolManager}
    (h : ReachableFrom NoReadFail m) : NoReadFail m.disk := by
  induction h with
  | base n d hd => exact hd
  | step op hre hstep ih => exact applyOp_noReadFail ih hstep

/-! ### Page-table consistency on the read-error-free fragment -/

theorem fetchPage_pt (m : BufferPoolManager) (pid : PageId)
    (hInv : Invariant m) (hnr : NoReadFail m.disk) (hpt : PTConsistent m) :
    PTConsistent (fetchPage m pid).2.1 := by
  obtain ⟨hpin, hcur, hrange⟩ := hInv
  obtain ⟨hinj, hkey⟩ := hpt
  cases hlu : ptLookup m.page_table pid with
  | some bid =>
      have hbid : bid < m.pool.buffers.length := hrange _ _ hlu
      rw [fetch_hit hlu hbid]
      simp only [PTConsistent]
      refine ⟨hinj, ?_⟩
      intro p i h
      have hk := hkey p i h
      refine ⟨by simpa using hk.1, ?_⟩
      by_cases hieq : i = bid
      · subst hieq
        rw [frameAt_set_self _ _ _ hbid]
        exact hk.2
      · rw [frameAt_set_ne _ _ _ _ hieq]
        exact hk.2
  | none =>
      cases hev : m.pool.evict with
      | oob =>
          rw [fetch_miss_oob hlu hev]
          exact ⟨hinj, hkey⟩
      | noBuffer pool1 =>
          rw [fetch_miss_noBuffer hlu hev]
          have hf := evict_frames m.pool pool1 (Or.inl hev)
          refine ⟨hinj, ?_⟩
          intro p i h
          have hk := hkey p i h
          refine ⟨hf.1.symm ▸ hk.1, ?_⟩
          rw [(hf.2.2 i hk.1).1]
          exact hk.2
      | victim bid pool1 =>
          have hvic := evictLoop_victim _ _ _ _ _ hev
          have hbid := hvic.1
          have hrefs := (evict_victim_unpinned _ _ _ hpin hev).1
          have hf := evict_frames m.pool pool1 (Or.inr ⟨bid, hev⟩)
          have hbid0 : bid < m.pool.buffers.length := hf.1 ▸ hbid
          have hbuf : (frameAt pool1.buffers bid).buffer
              = (frameAt m.pool.buffers bid).buffer := (hf.2.2 bid hbid0).1
          cases hdisk : (if (frameAt pool1.buffers bid).buffer.is_dirty then
              (m.disk.write_page_data pid (frameAt pool1.buffers bid).buffer.page).map
                (fun d => (d, [DiskOp.write pid (frameAt pool1.buffers bid).buffer.page]))
            else some (m.disk, [])) with
          | none =>
              rw [fetch_miss_writeFail hlu hev hbid hrefs hdisk]
              have hf1 := evict_frames m.pool pool1 (Or.inr ⟨bid, hev⟩)
              refine ⟨hinj, ?_⟩
              intro p i h
              have hk := hkey p i h
              refine ⟨hf1.1.symm ▸ hk.1, ?_⟩
              rw [(hf1.2.2 i hk.1).1]
              exact hk.2
          | some dt =>
              obtain ⟨disk1, tr1⟩ := dt
              cases hr : disk1.read_page_data pid with
              | none =>
                  exfalso
                  have : disk1.failRead pid = true := by
                    unfold DiskManager.read_page_data at hr
                    by_cases hfr : disk1.failRead pid = true
                    · exact hfr
                    · rw [if_neg hfr] at hr; cases hr
                  rw [dirtyStep_failRead hdisk] at this
                  rw [hnr pid] at this
                  cases this
              | some bytes =>
                  rw [fetch_miss_ok hlu hev hbid hrefs hdisk hr]
                  simp only [PTConsistent]
                  constructor
                  · intro p q i hp hq
                    rcases ptLookup_insert_cases hp with ⟨hp1, hp2⟩ | ⟨hp1, hp2⟩ <;>
                      rcases ptLookup_insert_cases hq with ⟨hq1, hq2⟩ | ⟨hq1, hq2⟩
                    · rw [hp1, hq1]
                    · exfalso
                      obtain ⟨hqe, hq3⟩ := ptLookup_remove_cases hq2
                      have hthis := (hkey q i hq3).2
                      rw [hp2] at hthis
                      rw [hbuf] at hqe
                      exact hqe hthis.symm
                    · exfalso
                      obtain ⟨hpe, hp3⟩ := ptLookup_remove_cases hp2
                      have hthis := (hkey p i hp3).2
                      rw [hq2] at hthis
                      rw [hbuf] at hpe
                      exact hpe hthis.symm
                    · exact hinj p q i (ptLookup_remove_cases hp2).2
                        (ptLookup_remove_cases hq2).2
                  · intro p i h
                    rcases ptLookup_insert_cases h with ⟨hp1, hp2⟩ | ⟨hp1, hp2⟩
                    · subst hp1
                      subst hp2
                      refine ⟨by simpa using hf.1.symm ▸ hbid0, ?_⟩
                      rw [frameAt_set_self _ _ _ hbid]
                    · obtain ⟨hpe, hp3⟩ := ptLookup_remove_cases hp2
                      have hk := hkey p i hp3
                      refine ⟨by simpa using hf.1.symm ▸ hk.1, ?_⟩
                      by_cases hieq : i = bid
                      · exfalso
                        subst hieq
                        have := hk.2
                        rw [← hbuf] at this
                        exact hpe this.symm
                      · rw [frameAt_set_ne _ _ _ _ hieq]
                        rw [(hf.2.2 i hk.1).1]
                        exact hk.2

theorem applyOp_pt {m m1 : BufferPoolManager} {op : ClientOp}
    (hInv : Invariant m) (hnr : NoReadFail m.disk) (hpt : PTConsistent m)
    (h : applyOp m op = some m1) : PTConsistent m1 := by
  obtain ⟨hinj, hkey⟩ := hpt
  cases op with
  | fetch pid =>
      rw [(applyOp_fetch_eq h).1]
      exact fetchPage_pt m pid hInv hnr ⟨hinj, hkey⟩
  | dropRef i =>
      simp only [applyOp] at h
      split at h
      case isTrue hi =>
        split at h
        case isTrue hrf =>
          injection h with h1
          subst h1
          refine ⟨hinj, ?_⟩
          intro p j hp
          have hk := hkey p j hp
          refine ⟨by simpa using hk.1, ?_⟩
          by_cases hje : j = i
          · subst hje
            rw [frameAt_set_self _ _ _ hi]
            exact hk.2
          · rw [frameAt_set_ne _ _ _ _ hje]
            exact hk.2
        case isFalse hrf => exact Option.noConfusion h
      case isFalse hi => exact Option.noConfusion h
  | writePage i bytes =>
      simp only [applyOp] at h
      split at h
      case isTrue hi =>
        split at h
        case isTrue hrf =>
          injection h with h1
          subst h1
          refine ⟨hinj, ?_⟩
          intro p j hp
          have hk := hkey p j hp
          refine ⟨by simpa using hk.1, ?_⟩
          by_cases hje : j = i
          · subst hje
            rw [frameAt_set_self _ _ _ hi]
            exact hk.2
          · rw [frameAt_set_ne _ _ _ _ hje]
            exact hk.2
        case isFalse hrf => exact Option.noConfusion h
      case isFalse hi => exact Option.noConfusion h

theorem run_reachable {P : DiskManager → Prop} {m m1 : BufferPoolManager}
    (ops : List ClientOp) (h : run m ops = some m1) (hre : ReachableFrom P m) :
    ReachableFrom P m1 := by
  induction ops generalizing m with
  | nil =>
      simp only [run] at h
      injection h with h1
      subst h1
      exact hre
  | cons op rest ih =>
      simp only [run] at h
      cases hap : applyOp m op with
      | none => rw [hap] at h; cases h
      | some m2 =>
          rw [hap] at h
          exact ih h (ReachableFrom.step op hre hap)

theorem reachable_pt {m : BufferPoolManager}
    (h : ReachableFrom NoReadFail m) : PTConsistent m := by
  induction h with
  | base n d hd =>
      refine ⟨?_, ?_⟩
      · intro p q i hp hq
        simp [initManager, BufferPoolManager.new, ptLookup] at hp
      · intro p i hp
        simp [initManager, BufferPoolManager.new, ptLookup] at hp
  | step op hre hstep ih =>
      exact applyOp_pt (reachable_invariant hre) (reachable_noReadFail hre) ih hstep

/-! ### Lemmas about flush -/

theorem flushLoop_clean (d : DiskManager) (l : List Frame)
    (h : ∀ f ∈ l, f.buffer.is_dirty = false) :
    flushLoop d l = (true, d, l, []) := by
  induction l with
  | nil => rfl
  | cons f rest ih =>
      have hf : f.buffer.is_dirty = false := h f (by simp)
      have hrest := ih fun g hg => h g (by simp [hg])
      simp [flushLoop, hf, hrest]

theorem flushLoop_success (d : DiskManager) (l : List Frame)
    (h : (flushLoop d l).1 = true) :
    (flushLoop d l).2.2.1 =
        l.map (fun f => { f with buffer := { f.buffer with is_dirty := false } }) ∧
      (flushLoop d l).2.2.2 =
        (l.filter (fun f => f.buffer.is_dirty)).map
          (fun f => DiskOp.write f.buffer.page_id f.buffer.page) := by
  induction l generalizing d with
  | nil => simp [flushLoop]
  | cons f rest ih =>
      by_cases hf : f.buffer.is_dirty = true
      · cases hw : d.write_page_data f.buffer.page_id f.buffer.page with
        | none =>
            exfalso
            simp [flushLoop, hf, hw] at h
        | some d1 =>
            simp only [flushLoop, hf, hw, if_true] at h ⊢
            have := ih d1 h
            simp only [List.map_cons, List.filter_cons, hf]
            refine ⟨?_, ?_⟩
            · simp only [this.1]
            · simp [this.2]
      · have hf0 : f.buffer.is_dirty = false := by
          cases hfd : f.buffer.is_dirty
          · rfl
          · exact absurd hfd hf
        simp only [flushLoop, hf0, Bool.false_eq_true, if_false] at h ⊢
        have := ih d h
        simp only [List.map_cons, List.filter_cons, hf0]
        refine ⟨?_, ?_⟩
        · simp only [this.1]
          have hfe : ({ f with buffer := { f.buffer with is_dirty := false } } : Frame)
              = f := by
            cases f with
            | mk u b c =>
                cases b with
                | mk p pg dd =>
                    simp only at hf0
                    simp [hf0]
          rw [hfe]
        · simp [this.2]

/-! ### Claim theorems -/

/-- C7: `flush()` iterates every frame of the pool and, for each frame whose
`is_dirty` flag is set, writes that frame's page bytes to disk at the frame's
current `page_id` and clears the flag, without evicting (frames keep their
page id, bytes, usage count and references) or changing the page table or
cursor; consequently a second `flush` with no intervening mutation performs
no disk writes and leaves the state unchanged. -/
theorem spec_C7_flush (m m1 : BufferPoolManager) (tr1 : List DiskOp)
    (h : m.flush = (true, m1, tr1)) :
    m1.page_table = m.page_table ∧
    m1.pool.next_victim_id = m.pool.next_victim_id ∧
    m1.pool.buffers = m.pool.buffers.map
      (fun f => { f with buffer := { f.buffer with is_dirty := false } }) ∧
    tr1 = (m.pool.buffers.filter (fun f => f.buffer.is_dirty)).map
      (fun f => DiskOp.write f.buffer.page_id f.buffer.page) ∧
    m1.flush = (true, m1, []) := by
  unfold BufferPoolManager.flush at h
  injection h with h1 h23
  injection h23 with h2 h3
  obtain ⟨hbuf, htr⟩ := flushLoop_success m.disk m.pool.buffers h1
  subst h2
  refine ⟨rfl, rfl, hbuf, ?_, ?_⟩
  · rw [← h3]
    exact htr
  · have hcln : ∀ f ∈ (flushLoop m.disk m.pool.buffers).2.2.1,
        f.buffer.is_dirty = false := by
      rw [hbuf]
      intro f hf
      simp only [List.mem_map] at hf
      obtain ⟨g, hg, hfg⟩ := hf
      rw [← hfg]
    unfold BufferPoolManager.flush
    rw [flushLoop_clean _ _ hcln]

/-- C7 witness: the flush contract evaluated at a concrete one-frame dirty
state. -/
theorem spec_C7_flush_witness :
    dirtyFlushState.flush =
      (true, dirtyFlushState.flush.2.1, dirtyFlushState.flush.2.2) ∧
    (dirtyFlushState.flush.2.1.page_table = dirtyFlushState.page_table ∧
     dirtyFlushState.flush.2.1.pool.next_victim_id =
       dirtyFlushState.pool.next_victim_id ∧
     dirtyFlushState.flush.2.1.pool.buffers = dirtyFlushState.pool.buffers.map
       (fun f => { f with buffer := { f.buffer with is_dirty := false } }) ∧
     dirtyFlushState.flush.2.2 =
       (dirtyFlushState.pool.buffers.filter (fun f => f.buffer.is_dirty)).map
         (fun f => DiskOp.write f.buffer.page_id f.buffer.page) ∧
     dirtyFlushState.flush.2.1.flush = (true, dirtyFlushState.flush.2.1, [])) :=
  ⟨rfl, spec_C7_flush dirtyFlushState dirtyFlushState.flush.2.1
    dirtyFlushState.flush.2.2 rfl⟩

/-- C2: over every reachable state (any sequence of `fetch_page` calls and
client reference drops), `evict` never returns a frame with a live client
reference — neither in the pool it returns nor in the pool it started from —
and consequently the `Rc::get_mut(..).unwrap()` on the miss path of
`fetch_page` never fails. -/
theorem spec_C2_pin_safety (m : BufferPoolManager) (hre : Reachable m) :
    (∀ bid pool1, m.pool.evict = .victim bid pool1 →
      (frameAt m.pool.buffers bid).clientRefs = 0 ∧
      (frameAt pool1.buffers bid).clientRefs = 0) ∧
    (∀ pid, (fetchPage m pid).1 ≠ .panicked .unwrapFail) := by
  have hpin := (reachable_invariant hre).1
  constructor
  · intro bid pool1 hv
    have := evict_victim_unpinned m.pool pool1 bid hpin hv
    exact ⟨this.2, this.1⟩
  · intro pid
    cases hpt : ptLookup m.page_table pid with
    | some bid =>
        by_cases hbid : bid < m.pool.buffers.length
        · rw [fetch_hit hpt hbid]; simp
        · rw [fetch_hit_oob hpt hbid]; simp
    | none =>
        cases hev : m.pool.evict with
        | oob => rw [fetch_miss_oob hpt hev]; simp
        | noBuffer pool1 => rw [fetch_miss_noBuffer hpt hev]; simp
        | victim bid pool1 =>
            have hbid := (evictLoop_victim _ _ _ _ _ hev).1
            have hrefs := (evict_victim_unpinned _ _ _ hpin hev).1
            cases hdisk : (if (frameAt pool1.buffers bid).buffer.is_dirty then
                (m.disk.write_page_data pid (frameAt pool1.buffers bid).buffer.page).map
                  (fun d => (d, [DiskOp.write pid (frameAt pool1.buffers bid).buffer.page]))
              else some (m.disk, [])) with
            | none => rw [fetch_miss_writeFail hpt hev hbid hrefs hdisk]; simp
            | some dt =>
                obtain ⟨disk1, tr1⟩ := dt
                cases hr : disk1.read_page_data pid with
                | none => rw [fetch_miss_readFail hpt hev hbid hrefs hdisk hr]; simp
                | some bytes => rw [fetch_miss_ok hpt hev hbid hrefs hdisk hr]; simp

/-- C2 witness: the pin-safety statement instantiated at a concrete
reachable one-frame state. -/
theorem spec_C2_pin_safety_witness :
    Reachable (initManager 1 noFailDisk) ∧
    ((∀ bid pool1, (initManager 1 noFailDisk).pool.evict = .victim bid pool1 →
        (frameAt (initManager 1 noFailDisk).pool.buffers bid).clientRefs = 0 ∧
        (frameAt pool1.buffers bid).clientRefs = 0) ∧
     (∀ pid, (fetchPage (initManager 1 noFailDisk) pid).1 ≠ .panicked .unwrapFail)) :=
  ⟨ReachableFrom.base 1 noFailDisk trivial,
   spec_C2_pin_safety _ (ReachableFrom.base 1 noFailDisk trivial)⟩

/-- C8: over every reachable state, a frame whose buffer has live client
references has `usage_count ≥ 1`; equivalently `usage_count = 0` only while
the manager holds the sole reference; and the sweep only ever lowers a usage
count, by steps taken on unpinned frames whose count was nonzero (no
underflow). -/
theorem spec_C8_usage_pin (m : BufferPoolManager) (hre : Reachable m) :
    (∀ i, i < m.pool.buffers.length →
      0 < (frameAt m.pool.buffers i).clientRefs →
      1 ≤ (frameAt m.pool.buffers i).usage_count) ∧
    (∀ i, i < m.pool.buffers.length →
      (frameAt m.pool.buffers i).usage_count = 0 →
      (frameAt m.pool.buffers i).clientRefs = 0) ∧
    (∀ pool1, (m.pool.evict = .noBuffer pool1 ∨
               ∃ bid, m.pool.evict = .victim bid pool1) →
      ∀ i, i < m.pool.buffers.length →
        (frameAt pool1.buffers i).usage_count ≤
          (frameAt m.pool.buffers i).usage_count ∧
        ((frameAt pool1.buffers i).usage_count <
            (frameAt m.pool.buffers i).usage_count →
          (frameAt m.pool.buffers i).clientRefs = 0 ∧
          1 ≤ (frameAt m.pool.buffers i).usage_count)) := by
  have hpin := (reachable_invariant hre).1
  refine ⟨hpin, ?_, ?_⟩
  · intro i hi hu
    by_contra hne
    have := hpin i hi (by omega)
    omega
  · intro pool1 hres i hi
    have hf := (evict_frames m.pool pool1 hres).2.2 i hi
    exact ⟨hf.2.2.1, fun hlt => ⟨hf.2.2.2 hlt, by omega⟩⟩

/-- C8 witness: the usage/pin invariant instantiated at a concrete reachable
state with a pinned frame, reached by fetching page 1 on a two-frame pool. -/
theorem spec_C8_usage_pin_witness :
    Reachable page0PinnedState ∧
    ((∀ i, i < page0PinnedState.pool.buffers.length →
       0 < (frameAt page0PinnedState.pool.buffers i).clientRefs →
       1 ≤ (frameAt page0PinnedState.pool.buffers i).usage_count) ∧
     (∀ i, i < page0PinnedState.pool.buffers.length →
       (frameAt page0PinnedState.pool.buffers i).usage_count = 0 →
       (frameAt page0PinnedState.pool.buffers i).clientRefs = 0) ∧
     (∀ pool1, (page0PinnedState.pool.evict = .noBuffer pool1 ∨
                ∃ bid, page0PinnedState.pool.evict = .victim bid pool1) →
       ∀ i, i < page0PinnedState.pool.buffers.length →
         (frameAt pool1.buffers i).usage_count ≤
           (frameAt page0PinnedState.pool.buffers i).usage_count ∧
         ((frameAt pool1.buffers i).usage_count <
             (frameAt page0PinnedState.pool.buffers i).usage_count →
           (frameAt page0PinnedState.pool.buffers i).clientRefs = 0 ∧
           1 ≤ (frameAt page0PinnedState.pool.buffers i).usage_count))) := by
  have hrun : run (initManager 2 noFailDisk) [.fetch 0] = some page0PinnedState := by
    simp [run, applyOp, fetchPage, initManager, BufferPoolManager.new,
      BufferPool.new, BufferPool.evict, evictLoop, frameAt, Frame.default,
      Buffer.default, ptLookup, ptInsert, ptRemove, DiskManager.read_page_data,
      DiskManager.write_page_data, noFailDisk, page0PinnedState, defaultPageId,
      zeroPage]
  have hre : Reachable page0PinnedState :=
    run_reachable _ hrun (ReachableFrom.base 2 noFailDisk trivial)
  exact ⟨hre, spec_C8_usage_pin _ hre⟩

/-- C6: for a page id present in the page table (at an in-range frame
index), `fetch_page` takes the hit path: it returns a new shared reference
to that frame's existing buffer, increments exactly that frame's usage count
by 1 (and its reference count), issues no disk operation, and leaves every
other frame, the buffer contents, the page table, the cursor and the disk
unchanged. -/
theorem spec_C6_hit_path (m : BufferPoolManager) (pid : PageId) (bid : Nat)
    (h1 : ptLookup m.page_table pid = some bid)
    (h2 : bid < m.pool.buffers.length) :
    (fetchPage m pid).1 = .ok bid ∧
    (fetchPage m pid).2.2 = [] ∧
    (frameAt (fetchPage m pid).2.1.pool.buffers bid).usage_count =
      (frameAt m.pool.buffers bid).usage_count + 1 ∧
    (frameAt (fetchPage m pid).2.1.pool.buffers bid).clientRefs =
      (frameAt m.pool.buffers bid).clientRefs + 1 ∧
    (frameAt (fetchPage m pid).2.1.pool.buffers bid).buffer =
      (frameAt m.pool.buffers bid).buffer ∧
    (∀ i, i ≠ bid →
      frameAt (fetchPage m pid).2.1.pool.buffers i = frameAt m.pool.buffers i) ∧
    (fetchPage m pid).2.1.page_table = m.page_table ∧
    (fetchPage m pid).2.1.pool.next_victim_id = m.pool.next_victim_id ∧
    (fetchPage m pid).2.1.disk = m.disk := by
  rw [fetch_hit h1 h2]
  dsimp only
  refine ⟨rfl, rfl, ?_, ?_, ?_, ?_, rfl, rfl, rfl⟩
  · rw [frameAt_set_self _ _ _ h2]
  · rw [frameAt_set_self _ _ _ h2]
  · rw [frameAt_set_self _ _ _ h2]
  · intro i hi
    exact frameAt_set_ne _ _ _ _ hi

/-- C6 witness: the hit path evaluated on a concrete state caching page 3. -/
theorem spec_C6_hit_path_witness :
    ptLookup hitState.page_table 3 = some 0 ∧
    0 < hitState.pool.buffers.length ∧
    ((fetchPage hitState 3).1 = .ok 0 ∧
     (fetchPage hitState 3).2.2 = [] ∧
     (frameAt (fetchPage hitState 3).2.1.pool.buffers 0).usage_count =
       (frameAt hitState.pool.buffers 0).usage_count + 1 ∧
     (frameAt (fetchPage hitState 3).2.1.pool.buffers 0).clientRefs =
       (frameAt hitState.pool.buffers 0).clientRefs + 1 ∧
     (frameAt (fetchPage hitState 3).2.1.pool.buffers 0).buffer =
       (frameAt hitState.pool.buffers 0).buffer ∧
     (∀ i, i ≠ 0 →
       frameAt (fetchPage hitState 3).2.1.pool.buffers i =
         frameAt hitState.pool.buffers i) ∧
     (fetchPage hitState 3).2.1.page_table = hitState.page_table ∧
     (fetchPage hitState 3).2.1.pool.next_victim_id =
       hitState.pool.next_victim_id ∧
     (fetchPage hitState 3).2.1.disk = hitState.disk) :=
  ⟨rfl, by simp [hitState], spec_C6_hit_path hitState 3 0 rfl (by simp [hitState])⟩

/-- C10: with pool size 0, any `fetch_page` of an uncached page — and any
`evict` — panics through out-of-bounds frame indexing rather than returning
`NoFreeBuffer`; on reachable states with pool size at least 1, `fetch_page`
never panics. -/
theorem spec_C10_zero_pool :
    (∀ m : BufferPoolManager, ∀ pid : PageId,
      m.pool.buffers.length = 0 → ptLookup m.page_table pid = none →
      fetchPage m pid = (.panicked .oob, m, []) ∧ m.pool.evict = .oob) ∧
    (∀ m : BufferPoolManager, ∀ pid : PageId, ∀ k,
      Reachable m → 1 ≤ m.pool.buffers.length →
      (fetchPage m pid).1 ≠ .panicked k) := by
  constructor
  · intro m pid hlen hmiss
    have hev : m.pool.evict = .oob := by
      unfold BufferPool.evict
      exact evictLoop_step_oob (by omega)
    exact ⟨fetch_miss_oob hmiss hev, hev⟩
  · intro m pid k hre hlen
    exact fetchPage_no_panic m pid (reachable_invariant hre) hlen k

/-- C10 witness: the two parts instantiated at a zero-frame and a one-frame
manager. -/
theorem spec_C10_zero_pool_witness :
    ((initManager 0 noFailDisk).pool.buffers.length = 0 ∧
     ptLookup (initManager 0 noFailDisk).page_table 3 = none ∧
     fetchPage (initManager 0 noFailDisk) 3 =
       (.panicked .oob, initManager 0 noFailDisk, []) ∧
     (initManager 0 noFailDisk).pool.evict = .oob) ∧
    (Reachable (initManager 1 noFailDisk) ∧
     1 ≤ (initManager 1 noFailDisk).pool.buffers.length ∧
     (fetchPage (initManager 1 noFailDisk) 3).1 ≠ .panicked .oob) := by
  refine ⟨⟨rfl, rfl, ?_, ?_⟩, ?_, ?_, ?_⟩
  · exact (spec_C10_zero_pool.1 (initManager 0 noFailDisk) 3 rfl rfl).1
  · exact (spec_C10_zero_pool.1 (initManager 0 noFailDisk) 3 rfl rfl).2
  · exact ReachableFrom.base 1 noFailDisk trivial
  · simp [initManager, BufferPoolManager.new, BufferPool.new]
  · exact spec_C10_zero_pool.2 (initManager 1 noFailDisk) 3 .oob
      (ReachableFrom.base 1 noFailDisk trivial)
      (by simp [initManager, BufferPoolManager.new, BufferPool.new])

/-- C4 counterexample: on usage counts `[2,0,1]` with the cursor at index 0,
`evict()` returns index 1 with counts `[1,0,1]`, but the cursor is left AT
index 1 (the loop breaks before the cursor advance and `fetch_page` never
advances it), not past it. -/
theorem spec_C4_sweep_cex :
    BufferPool.evict sweepPool =
      .victim 1 ⟨[plainFrame 1, plainFrame 0, plainFrame 1], 1⟩ ∧
    ¬ BufferPool.evict sweepPool =
      .victim 1 ⟨[plainFrame 1, plainFrame 0, plainFrame 1], 2⟩ := by
  have h1 : BufferPool.evict sweepPool =
      .victim 1 ⟨[plainFrame 1, plainFrame 0, plainFrame 1], 1⟩ := by
    simp [BufferPool.evict, evictLoop, sweepPool, plainFrame, frameAt,
      Buffer.default]
  refine ⟨h1, ?_⟩
  intro h2
  rw [h1] at h2
  simp at h2

/-- C4 amended: on usage counts `[2,0,1]` with the cursor at index 0,
`evict()` decrements index 0's count to 1, returns index 1 with counts
`[1,0,1]`, and leaves the cursor pointing at the victim index 1 (it is not
advanced past it). -/
theorem spec_C4_sweep :
    BufferPool.evict sweepPool =
      .victim 1 ⟨[plainFrame 1, plainFrame 0, plainFrame 1], 1⟩ := by
  simp [BufferPool.evict, evictLoop, sweepPool, plainFrame, frameAt,
    Buffer.default]

/-- C3: on a reachable state whose N frames are all pinned, fetching an
uncached page fails with `NoFreeBuffer` after a sweep that issues no disk
operation and mutates nothing but the cursor; and once one of those pins
(a single client reference) is dropped, the same `fetch_page` call succeeds,
provided the disk does not fail on the requested page. -/
theorem spec_C3_saturation (m : BufferPoolManager) (pid : PageId)
    (hre : Reachable m)
    (hlen : 1 ≤ m.pool.buffers.length)
    (hall : ∀ i, i < m.pool.buffers.length →
      0 < (frameAt m.pool.buffers i).clientRefs)
    (hmiss : ptLookup m.page_table pid = none) :
    (∃ nv1, fetchPage m pid =
      (.err .noFreeBuffer, { m with pool := ⟨m.pool.buffers, nv1⟩ }, [])) ∧
    (∀ m1, fetchPage m pid = (.err .noFreeBuffer, m1, []) →
      ∀ j, j < m1.pool.buffers.length →
        (frameAt m1.pool.buffers j).clientRefs = 1 →
        ∀ m2, applyOp m1 (.dropRef j) = some m2 →
          m.disk.failWrite pid = false → m.disk.failRead pid = false →
          ∃ bid m3 tr, fetchPage m2 pid = (.ok bid, m3, tr)) := by
  have hInv := reachable_invariant hre
  obtain ⟨hpin, hcur, hrange⟩ := hInv
  have hnv : m.pool.next_victim_id < m.pool.buffers.length := by
    rcases hcur with h | h
    · omega
    · exact h
  have hallp : ∀ i, i < m.pool.buffers.length →
      0 < (frameAt m.pool.buffers i).clientRefs ∧
      1 ≤ (frameAt m.pool.buffers i).usage_count :=
    fun i hi => ⟨hall i hi, hpin i hi (hall i hi)⟩
  obtain ⟨nv1, hevl⟩ :=
    evictLoop_allPinned m.pool.buffers m.pool.next_victim_id 0 hnv hallp
  have hev : m.pool.evict = .noBuffer ⟨m.pool.buffers, nv1⟩ := hevl
  have heq := fetch_miss_noBuffer hmiss hev
  have hnv1 : nv1 < m.pool.buffers.length := by
    have := (evict_frames m.pool ⟨m.pool.buffers, nv1⟩ (Or.inl hev)).2.1
    exact this
  refine ⟨⟨nv1, heq⟩, ?_⟩
  intro m1 hfp j hj hrefs1 m2 happ hfw hfr
  rw [heq] at hfp
  injection hfp with hfp1 hfp2
  injection hfp2 with hfp2 hfp3
  subst hfp2
  dsimp only at hj hrefs1 happ
  simp only [applyOp] at happ
  split at happ
  case isFalse hj2 => exact absurd hj hj2
  case isTrue hj2 =>
  split at happ
  case isFalse hr2 => exact absurd (by omega : 0 < (frameAt m.pool.buffers j).clientRefs) hr2
  case isTrue hr2 =>
  injection happ with happ1
  subst happ1
  -- the state after the drop: frame j now has no client references
  have hsetlen : (m.pool.buffers.set j
      { frameAt m.pool.buffers j with
          clientRefs := (frameAt m.pool.buffers j).clientRefs - 1 }).length
      = m.pool.buffers.length := by simp
  have hrefs0 : (frameAt (m.pool.buffers.set j
      { frameAt m.pool.buffers j with
          clientRefs := (frameAt m.pool.buffers j).clientRefs - 1 }) j).clientRefs
      = 0 := by
    rw [frameAt_set_self _ _ _ hj]
    dsimp only
    omega
  -- the sweep finds frame j within budget
  have hk : (nv1 + (j + m.pool.buffers.length - nv1) % m.pool.buffers.length)
      % m.pool.buffers.length = j := by
    rw [mod_add_right_mod]
    have h1 : nv1 + (j + m.pool.buffers.length - nv1)
        = j + m.pool.buffers.length := by omega
    rw [h1, Nat.add_mod_right, Nat.mod_eq_of_lt hj]
  have hkbound : 0 + (j + m.pool.buffers.length - nv1) % m.pool.buffers.length
      < m.pool.buffers.length := by
    have := Nat.mod_lt (j + m.pool.buffers.length - nv1)
      (show 0 < m.pool.buffers.length by omega)
    omega
  obtain ⟨bid, pool1, hevv⟩ :=
    evictLoop_finds
      (m.pool.buffers.set j
        { frameAt m.pool.buffers j with
            clientRefs := (frameAt m.pool.buffers j).clientRefs - 1 })
      nv1 0 (by rw [hsetlen]; exact hnv1)
      j ((j + m.pool.buffers.length - nv1) % m.pool.buffers.length)
      (by rw [hsetlen]; exact hk)
      (by rw [hsetlen]; exact hkbound)
      hrefs0
  have hpin2 : PinInv (m.pool.buffers.set j
      { frameAt m.pool.buffers j with
          clientRefs := (frameAt m.pool.buffers j).clientRefs - 1 }) := by
    intro i hi hcl
    rw [hsetlen] at hi
    by_cases hij : i = j
    · subst hij
      rw [hrefs0] at hcl
      omega
    · rw [frameAt_set_ne _ _ _ _ hij] at hcl ⊢
      exact hpin i hi hcl
  have hbid2 := (evictLoop_victim _ _ _ _ _ hevv).1
  have hrefsv : (frameAt pool1.buffers bid).clientRefs = 0 := by
    have : BufferPool.evict
        ⟨m.pool.buffers.set j
          { frameAt m.pool.buffers j with
              clientRefs := (frameAt m.pool.buffers j).clientRefs - 1 }, nv1⟩
        = .victim bid pool1 := hevv
    exact (evict_victim_unpinned _ _ _ hpin2 this).1
  have hdiskstep : ∃ disk1 tr1,
      (if (frameAt pool1.buffers bid).buffer.is_dirty then
          (m.disk.write_page_data pid (frameAt pool1.buffers bid).buffer.page).map
            (fun d => (d, [DiskOp.write pid (frameAt pool1.buffers bid).buffer.page]))
        else some (m.disk, [])) = some (disk1, tr1) ∧
      disk1.failRead pid = false := by
    by_cases hd : (frameAt pool1.buffers bid).buffer.is_dirty = true
    · refine ⟨{ m.disk with data :=
            (fun q =>
              if q = pid then (frameAt pool1.buffers bid).buffer.page
              else m.disk.data q) },
        [DiskOp.write pid (frameAt pool1.buffers bid).buffer.page], ?_, ?_⟩
      · rw [if_pos hd]
        unfold DiskManager.write_page_data
        rw [if_neg (by rw [hfw]; exact Bool.false_ne_true)]
        rfl
      · exact hfr
    · refine ⟨m.disk, [], ?_, hfr⟩
      rw [if_neg hd]
  obtain ⟨disk1, tr1, hdisk, hfr1⟩ := hdiskstep
  have hread : disk1.read_page_data pid = some (disk1.data pid) := by
    unfold DiskManager.read_page_data
    rw [if_neg (by rw [hfr1]; exact Bool.false_ne_true)]
  exact ⟨bid, _, _,
    fetch_miss_ok (m := { m with pool :=
        ⟨(m.pool.buffers.set j
            { frameAt m.pool.buffers j with
                clientRefs := (frameAt m.pool.buffers j).clientRefs - 1 }),
         nv1⟩ })
      hmiss hevv hbid2 hrefsv hdisk hread⟩

/-- C3 witness: the saturation behaviour instantiated at the concrete
two-frame state holding pinned pages 1 and 2, fetching page 3. -/
theorem spec_C3_saturation_witness :
    Reachable saturatedState ∧
    1 ≤ saturatedState.pool.buffers.length ∧
    (∀ i, i < saturatedState.pool.buffers.length →
      0 < (frameAt saturatedState.pool.buffers i).clientRefs) ∧
    ptLookup saturatedState.page_table 3 = none ∧
    ((∃ nv1, fetchPage saturatedState 3 =
        (.err .noFreeBuffer,
          { saturatedState with pool := ⟨saturatedState.pool.buffers, nv1⟩ }, [])) ∧
     (∀ m1, fetchPage saturatedState 3 = (.err .noFreeBuffer, m1, []) →
       ∀ j, j < m1.pool.buffers.length →
         (frameAt m1.pool.buffers j).clientRefs = 1 →
         ∀ m2, applyOp m1 (.dropRef j) = some m2 →
           saturatedState.disk.failWrite 3 = false →
           saturatedState.disk.failRead 3 = false →
           ∃ bid m3 tr, fetchPage m2 3 = (.ok bid, m3, tr))) := by
  have hrun : run (initManager 2 noFailDisk) [.fetch 1, .fetch 2]
      = some saturatedState := by
    simp [run, applyOp, fetchPage, initManager, BufferPoolManager.new,
      BufferPool.new, BufferPool.evict, evictLoop, frameAt, Frame.default,
      Buffer.default, ptLookup, ptInsert, ptRemove, DiskManager.read_page_data,
      DiskManager.write_page_data, noFailDisk, saturatedState, defaultPageId,
      zeroPage]
  have hre : Reachable saturatedState :=
    run_reachable _ hrun (ReachableFrom.base 2 noFailDisk trivial)
  have hall : ∀ i, i < saturatedState.pool.buffers.length →
      0 < (frameAt saturatedState.pool.buffers i).clientRefs := by decide
  exact ⟨hre, by decide, hall, rfl,
    spec_C3_saturation saturatedState 3 hre (by decide) hall rfl⟩

/-- C9: on a cache miss, `fetch_page` removes the page-table entry keyed by
the victim frame's pre-reload `page_id`, whatever that value is — even when
the victim never held a loaded page — so when that stale value equals the id
of a page cached in a different frame, the successful fetch removes that
other page's entry while the page still occupies its (untouched) frame. -/
theorem spec_C9_stale_remove (m : BufferPoolManager) (pid q : PageId)
    (bid w : Nat) (pool1 : BufferPool)
    (hmiss : ptLookup m.page_table pid = none)
    (hev : m.pool.evict = .victim bid pool1)
    (hbid : bid < pool1.buffers.length)
    (hrefs : (frameAt pool1.buffers bid).clientRefs = 0)
    (hq : (frameAt pool1.buffers bid).buffer.page_id = q)
    (hqw : ptLookup m.page_table q = some w)
    (hwbid : w ≠ bid)
    (hfw : m.disk.failWrite pid = false)
    (hfr : m.disk.failRead pid = false) :
    ∃ m3 tr, fetchPage m pid = (.ok bid, m3, tr) ∧
      ptLookup m3.page_table q = none ∧
      frameAt m3.pool.buffers w = frameAt pool1.buffers w := by
  have hdiskstep : ∃ disk1 tr1,
      (if (frameAt pool1.buffers bid).buffer.is_dirty then
          (m.disk.write_page_data pid (frameAt pool1.buffers bid).buffer.page).map
            (fun d => (d, [DiskOp.write pid (frameAt pool1.buffers bid).buffer.page]))
        else some (m.disk, [])) = some (disk1, tr1) ∧
      disk1.failRead pid = false := by
    by_cases hd : (frameAt pool1.buffers bid).buffer.is_dirty = true
    · refine ⟨{ m.disk with data :=
            (fun r =>
              if r = pid then (frameAt pool1.buffers bid).buffer.page
              else m.disk.data r) },
        [DiskOp.write pid (frameAt pool1.buffers bid).buffer.page], ?_, ?_⟩
      · rw [if_pos hd]
        unfold DiskManager.write_page_data
        rw [if_neg (by rw [hfw]; exact Bool.false_ne_true)]
        rfl
      · exact hfr
    · refine ⟨m.disk, [], ?_, hfr⟩
      rw [if_neg hd]
  obtain ⟨disk1, tr1, hdisk, hfr1⟩ := hdiskstep
  have hread : disk1.read_page_data pid = some (disk1.data pid) := by
    unfold DiskManager.read_page_data
    rw [if_neg (by rw [hfr1]; exact Bool.false_ne_true)]
  have hqpid : q ≠ pid := by
    intro hcon
    rw [hcon] at hqw
    rw [hmiss] at hqw
    cases hqw
  refine ⟨_, _, fetch_miss_ok hmiss hev hbid hrefs hdisk hread, ?_, ?_⟩
  · dsimp only
    rw [hq]
    rw [ptLookup_insert_ne _ _ _ _ hqpid]
    exact ptLookup_remove_self _ _
  · dsimp only
    exact frameAt_set_ne _ _ _ _ hwbid

/-- C9 witness: on the concrete two-frame state caching page 0 in frame 0
(pinned), fetching page 5 evicts the fresh frame 1 whose default page id is
0, and page 0's entry disappears while frame 0 is untouched. -/
theorem spec_C9_stale_remove_witness :
    ptLookup page0PinnedState.page_table 5 = none ∧
    page0PinnedState.pool.evict = .victim 1 ⟨page0PinnedState.pool.buffers, 1⟩ ∧
    (frameAt page0PinnedState.pool.buffers 1).buffer.page_id = 0 ∧
    ptLookup page0PinnedState.page_table 0 = some 0 ∧
    (∃ m3 tr, fetchPage page0PinnedState 5 = (.ok 1, m3, tr) ∧
      ptLookup m3.page_table 0 = none ∧
      frameAt m3.pool.buffers 0 = frameAt page0PinnedState.pool.buffers 0) := by
  have hev : page0PinnedState.pool.evict =
      .victim 1 ⟨page0PinnedState.pool.buffers, 1⟩ := by
    simp [BufferPool.evict, evictLoop, page0PinnedState, frameAt, Frame.default,
      Buffer.default, defaultPageId]
  refine ⟨rfl, hev, rfl, rfl, ?_⟩
  exact spec_C9_stale_remove page0PinnedState 5 0 1 0
    ⟨page0PinnedState.pool.buffers, 1⟩ rfl hev (by decide) rfl rfl rfl
    (by decide) rfl rfl

/-- C5 amended: after every sequence of fetch_page calls and reference drops
in which no disk read fails, the page table satisfies: at most one entry
references any given frame index, and every entry's key equals the
referenced (in-range) frame's current buffer `page_id`.  (The further claim
that an entry exists for every frame holding a valid loaded page, and that
these invariants survive failed disk reads, is refuted by
`spec_C5_pt_consistency_cex`.) -/
theorem spec_C5_pt_consistency (m : BufferPoolManager)
    (hre : ReachableFrom NoReadFail m) :
    (∀ p q i, ptLookup m.page_table p = some i →
      ptLookup m.page_table q = some i → p = q) ∧
    (∀ p i, ptLookup m.page_table p = some i →
      i < m.pool.buffers.length ∧
      (frameAt m.pool.buffers i).buffer.page_id = p) :=
  reachable_pt hre

/-- C5 witness: the page-table invariants instantiated at a concrete
reachable state with a cached page. -/
theorem spec_C5_pt_consistency_witness :
    ReachableFrom NoReadFail page0PinnedState ∧
    ((∀ p q i, ptLookup page0PinnedState.page_table p = some i →
       ptLookup page0PinnedState.page_table q = some i → p = q) ∧
     (∀ p i, ptLookup page0PinnedState.page_table p = some i →
       i < page0PinnedState.pool.buffers.length ∧
       (frameAt page0PinnedState.pool.buffers i).buffer.page_id = p)) := by
  have hrun : run (initManager 2 noFailDisk) [.fetch 0] = some page0PinnedState := by
    simp [run, applyOp, fetchPage, initManager, BufferPoolManager.new,
      BufferPool.new, BufferPool.evict, evictLoop, frameAt, Frame.default,
      Buffer.default, ptLookup, ptInsert, ptRemove, DiskManager.read_page_data,
      DiskManager.write_page_data, noFailDisk, page0PinnedState, defaultPageId,
      zeroPage]
  have hre : ReachableFrom NoReadFail page0PinnedState :=
    run_reachable _ hrun
      (ReachableFrom.base 2 noFailDisk (fun _ => rfl))
  exact ⟨hre, spec_C5_pt_consistency _ hre⟩

/-- C5 counterexample: (i) after a reachable sequence ending in a failed
disk read, a page-table entry's key (5) no longer matches the referenced
frame's `page_id` (already overwritten to 9); (ii) with no I/O error at all,
evicting a fresh frame whose construction-default `page_id` 0 equals cached
page 0's id removes page 0's entry while that page, still referenced, keeps
occupying frame 0 — so entries do not exist exactly for the frames holding
valid loaded pages. -/
theorem spec_C5_pt_consistency_cex :
    (run (initManager 1 failRead9Disk) [.fetch 5, .dropRef 0, .fetch 9]
        = some readFailResultState ∧
      ptLookup readFailResultState.page_table 5 = some 0 ∧
      (frameAt readFailResultState.pool.buffers 0).buffer.page_id = 9 ∧
      ¬ (frameAt readFailResultState.pool.buffers 0).buffer.page_id = 5) ∧
    (run (initManager 2 noFailDisk) [.fetch 0, .fetch 5]
        = some collisionResultState ∧
      ptLookup collisionResultState.page_table 0 = none ∧
      (frameAt collisionResultState.pool.buffers 0).buffer.page_id = 0 ∧
      0 < (frameAt collisionResultState.pool.buffers 0).clientRefs) := by
  constructor
  · have hrun : run (initManager 1 failRead9Disk) [.fetch 5, .dropRef 0, .fetch 9]
        = some readFailResultState := by
      simp [run, applyOp, fetchPage, initManager, BufferPoolManager.new,
        BufferPool.new, BufferPool.evict, evictLoop, frameAt, Frame.default,
        Buffer.default, ptLookup, ptInsert, ptRemove, DiskManager.read_page_data,
        DiskManager.write_page_data, failRead9Disk, noFailDisk,
        readFailResultState, defaultPageId, zeroPage]
    refine ⟨hrun, ?_, ?_, ?_⟩ <;>
      simp [readFailResultState, run, applyOp, fetchPage, initManager,
        BufferPoolManager.new, BufferPool.new, BufferPool.evict, evictLoop,
        frameAt, Frame.default, Buffer.default, ptLookup, ptInsert, ptRemove,
        DiskManager.read_page_data, DiskManager.write_page_data, failRead9Disk,
        noFailDisk, defaultPageId, zeroPage]
  · have hrun : run (initManager 2 noFailDisk) [.fetch 0, .fetch 5]
        = some collisionResultState := by
      simp [run, applyOp, fetchPage, initManager, BufferPoolManager.new,
        BufferPool.new, BufferPool.evict, evictLoop, frameAt, Frame.default,
        Buffer.default, ptLookup, ptInsert, ptRemove, DiskManager.read_page_data,
        DiskManager.write_page_data, noFailDisk, collisionResultState,
        defaultPageId, zeroPage]
    refine ⟨hrun, ?_, ?_, ?_⟩ <;>
      simp [collisionResultState, run, applyOp, fetchPage, initManager,
        BufferPoolManager.new, BufferPool.new, BufferPool.evict, evictLoop,
        frameAt, Frame.default, Buffer.default, ptLookup, ptInsert, ptRemove,
        DiskManager.read_page_data, DiskManager.write_page_data, noFailDisk,
        defaultPageId, zeroPage]

/-- C1 evaluation at the failing input: the single frame holds page 5 with
dirty bytes `pageSeven`; fetching page 9 issues the dirty write-back at page
9 — the id passed to `write_page_data` at buffer.rs:155 is `page_id`, the
page being requested — strictly before the read of page 9, and never writes
at the victim's old id 5: page 5's durable bytes stay stale (zeros) and page
9's on-disk bytes are clobbered with the victim's bytes. -/
theorem spec_C1_writeback_eval :
    run (initManager 1 noFailDisk) [.fetch 5, .writePage 0 pageSeven, .dropRef 0]
      = some dirtyVictimState ∧
    (frameAt dirtyVictimState.pool.buffers 0).buffer.page_id = 5 ∧
    (frameAt dirtyVictimState.pool.buffers 0).buffer.is_dirty = true ∧
    (frameAt dirtyVictimState.pool.buffers 0).buffer.page = pageSeven ∧
    (fetchPage dirtyVictimState 9).2.2
      = [DiskOp.write 9 pageSeven, DiskOp.read 9] ∧
    DiskOp.write 5 pageSeven ∉ (fetchPage dirtyVictimState 9).2.2 ∧
    (fetchPage dirtyVictimState 9).2.1.disk.data 5 = zeroPage ∧
    (fetchPage dirtyVictimState 9).2.1.disk.data 9 = pageSeven := by
  have hrun : run (initManager 1 noFailDisk)
      [.fetch 5, .writePage 0 pageSeven, .dropRef 0] = some dirtyVictimState := by
    simp [run, applyOp, fetchPage, initManager, BufferPoolManager.new,
      BufferPool.new, BufferPool.evict, evictLoop, frameAt, Frame.default,
      Buffer.default, ptLookup, ptInsert, ptRemove, DiskManager.read_page_data,
      DiskManager.write_page_data, noFailDisk, dirtyVictimState, defaultPageId,
      zeroPage, pageSeven]
  have htr : (fetchPage dirtyVictimState 9).2.2
      = [DiskOp.write 9 pageSeven, DiskOp.read 9] := by
    simp [fetchPage, BufferPool.evict, evictLoop, frameAt, dirtyVictimState,
      ptLookup, ptInsert, ptRemove, DiskManager.read_page_data,
      DiskManager.write_page_data, noFailDisk]
  refine ⟨hrun, rfl, rfl, rfl, htr, ?_, ?_, ?_⟩
  · rw [htr]
    decide
  · simp [fetchPage, BufferPool.evict, evictLoop, frameAt, dirtyVictimState,
      ptLookup, ptInsert, ptRemove, DiskManager.read_page_data,
      DiskManager.write_page_data, noFailDisk, zeroPage]
  · simp [fetchPage, BufferPool.evict, evictLoop, frameAt, dirtyVictimState,
      ptLookup, ptInsert, ptRemove, DiskManager.read_page_data,
      DiskManager.write_page_data, noFailDisk, pageSeven]

end RustRdbms
